import Mathlib

/-!
Shallow embedding of the procurement (LPO / goods-receipt) core of the
sacsol backend: `procurement/models.py`, `procurement/serializers.py`,
`procurement/services.py` and the relevant parts of `procurement/views.py`.

Monetary amounts and quantities are Python `Decimal` values; all the
arithmetic this code performs on them (addition, subtraction,
multiplication, division by ten-powers) is exact, so they are modelled by
the exact fixed-point type `Dec` below (value `num / 10 ^ exp`).  Database
tables are Lean lists inside a `DB` record; every operation is a total
function returning `Except Err DB`.  Django's `transaction.atomic` makes a
raised validation error roll the whole operation back, which the `Except`
encoding captures: a caller keeps the old state on `.error` (the
`apply...` wrappers below make that explicit).
-/

namespace Sacsol

/-- Exact fixed-point decimal `num / 10 ^ exp`, modelling Python `Decimal`
for the exact arithmetic performed by this code. -/
structure Dec where
  num : Int
  exp : Nat
deriving DecidableEq, Repr

namespace Dec

/-- Numeric value of a decimal, as a rational. -/
def toRat (a : Dec) : Rat := (a.num : Rat) / ((10 : Rat) ^ a.exp)

/-- Bring two decimals to a common scale (the larger exponent). -/
def align (a b : Dec) : Int × Int × Nat :=
  let e := max a.exp b.exp
  (a.num * (10 : Int) ^ (e - a.exp), b.num * (10 : Int) ^ (e - b.exp), e)

def add (a b : Dec) : Dec :=
  let p := align a b
  ⟨p.1 + p.2.1, p.2.2⟩

def sub (a b : Dec) : Dec :=
  let p := align a b
  ⟨p.1 - p.2.1, p.2.2⟩

def mul (a b : Dec) : Dec := ⟨a.num * b.num, a.exp + b.exp⟩

/-- Numeric `≤` on decimals (Python `Decimal` comparison is by value). -/
def ble (a b : Dec) : Bool :=
  let p := align a b
  p.1 ≤ p.2.1

/-- Numeric `<` on decimals. -/
def blt (a b : Dec) : Bool :=
  let p := align a b
  p.1 < p.2.1

/-- Numeric equality on decimals (Python `Decimal.__eq__` is by value). -/
def beq (a b : Dec) : Bool :=
  let p := align a b
  p.1 == p.2.1

/-- `Decimal("0")`. -/
def zero : Dec := ⟨0, 0⟩

/-- `Decimal("0.00")`. -/
def zero2 : Dec := ⟨0, 2⟩

/-- Python `sum(xs, init)`: a left fold of `+` over the list. -/
def sumD (l : List Dec) (init : Dec) : Dec := l.foldl add init

/-- Round-half-even division by a positive divisor (the rounding of
`Decimal.quantize` with the default `ROUND_HALF_EVEN`, for nonnegative
operands, which is the only way this code uses it). -/
def roundHalfEvenDiv (n d : Int) : Int :=
  let q := n / d
  let r := n % d
  if 2 * r < d then q
  else if d < 2 * r then q + 1
  else if q % 2 = 0 then q else q + 1

/-- `x.quantize(Decimal("0.01"))` (serializers.py:274). -/
def quantize2 (a : Dec) : Dec :=
  if a.exp ≤ 2 then ⟨a.num * (10 : Int) ^ (2 - a.exp), 2⟩
  else ⟨roundHalfEvenDiv a.num ((10 : Int) ^ (a.exp - 2)), 2⟩

/-- `x / Decimal("100")` and friends: division by a power of ten is exact. -/
def divPow10 (a : Dec) (k : Nat) : Dec := ⟨a.num, a.exp + k⟩

end Dec

/-- `LPO.STATUS_*` (models.py:49-62). -/
inductive Status
  | draft
  | submitted
  | approved
  | partiallyReceived
  | fulfilled
  | cancelled
deriving DecidableEq, Repr

/-- `Supplier` row (models.py:13-33). -/
structure Supplier where
  id : Nat
  supplier_code : String
  name : String
  email : String
  phone : String
  rc_number : String
  tax_id : String
  is_active : Bool
deriving DecidableEq, Repr

/-- `LPO` row (models.py:48-96); users, timestamps and the free-text header
fields are not needed by any claim and are omitted. -/
structure LPO where
  id : Nat
  supplierId : Nat
  lpo_number : String
  status : Status
  subtotal : Dec
  tax_amount : Dec
  discount_amount : Dec
  grand_total : Dec
deriving DecidableEq, Repr

/-- `LPOItem` row (models.py:142-165). -/
structure LPOItem where
  id : Nat
  lpoId : Nat
  inventory_item : Option Nat
  description : String
  qty : Dec
  unit_price : Dec
  line_total : Dec
deriving DecidableEq, Repr

/-- `GoodsReceipt` row (models.py:181-186). -/
structure GoodsReceipt where
  id : Nat
  lpoId : Nat
deriving DecidableEq, Repr

/-- `GoodsReceiptItem` row (models.py:189-195). -/
structure GoodsReceiptItem where
  grnId : Nat
  lpo_item : Nat
  qty_received : Dec
deriving DecidableEq, Repr

/-- `AuditLog` row (models.py:203-215). -/
structure AuditLog where
  verb : String
  lpoId : Option Nat
  grnId : Option Nat
deriving DecidableEq, Repr

/-- `LPOSequence` row (models.py:36-45): one counter row per year. -/
structure LPOSequence where
  year : Nat
  counter : Nat
deriving DecidableEq, Repr

/-- The `quantity` field of `inventory.InventoryEntry`, the only part of the
inventory collaborator the receipt path touches (serializers.py:393-397). -/
structure InventoryEntry where
  id : Nat
  quantity : Dec
deriving DecidableEq, Repr

/-- The persistent store: one list per table, plus fresh-id counters for the
autoincrement primary keys. -/
structure DB where
  suppliers : List Supplier
  lpos : List LPO
  lpoItems : List LPOItem
  grns : List GoodsReceipt
  grnItems : List GoodsReceiptItem
  audits : List AuditLog
  seqs : List LPOSequence
  inventory : List InventoryEntry
  nextSupplierId : Nat
  nextLpoId : Nat
  nextItemId : Nat
  nextGrnId : Nat
deriving DecidableEq, Repr

def initDB : DB := ⟨[], [], [], [], [], [], [], [], 0, 0, 0, 0⟩

/-- The domain validation errors this core raises (serializer
`ValidationError`s and the model-layer `ValueError`s), keyed by message. -/
inductive Err
  | supplierDupNamePhone
  | supplierDupNameEmail
  | supplierDupRcNumber
  | supplierDupTaxId
  | supplierMissing
  | itemRequired
  | itemDescriptionMissing
  | itemQtyNotPositive
  | itemUnitPriceNegative
  | notEditable
  | protectedReceipts
  | lpoNotFound
  | onlyDraftCanSubmit
  | emptyOrZeroTotal
  | onlySubmittedCanApprove
  | cannotApproveEmpty
  | cannotCancel
  | onlyApprovedOrPartialCanReceive
  | receiptItemsRequired
  | qtyReceivedNotPositive
  | lpoItemNotFound
  | qtyExceedsRemaining (remaining : Dec)
deriving DecidableEq, Repr

instance {α β : Type} [DecidableEq α] [DecidableEq β] : DecidableEq (Except α β) := fun a b =>
  match a, b with
  | .error x, .error y =>
    if h : x = y then .isTrue (by rw [h]) else .isFalse (fun hc => h (Except.error.inj hc))
  | .error _, .ok _ => .isFalse (fun hc => Except.noConfusion hc)
  | .ok _, .error _ => .isFalse (fun hc => Except.noConfusion hc)
  | .ok x, .ok y =>
    if h : x = y then .isTrue (by rw [h]) else .isFalse (fun hc => h (Except.ok.inj hc))

-- ===== queries =====

def findL (ls : List LPO) (lpoId : Nat) : Option LPO :=
  ls.find? (fun l => l.id == lpoId)

def findLPO (db : DB) (lpoId : Nat) : Option LPO := findL db.lpos lpoId

def findIt (its : List LPOItem) (itemId : Nat) : Option LPOItem :=
  its.find? (fun i => i.id == itemId)

def findLPOItem (db : DB) (itemId : Nat) : Option LPOItem := findIt db.lpoItems itemId

/-- `lpo.items.all()`: the line items of one order. -/
def itemsOfList (its : List LPOItem) (lpoId : Nat) : List LPOItem :=
  its.filter (fun i => i.lpoId == lpoId)

def itemsOf (db : DB) (lpoId : Nat) : List LPOItem := itemsOfList db.lpoItems lpoId

/-- `LPOItem.total_received` (models.py:162-165): sum of `qty_received` over
the receipt items referencing this line item, `or Decimal("0")`. -/
def totalReceived (gs : List GoodsReceiptItem) (itemId : Nat) : Dec :=
  Dec.sumD ((gs.filter (fun g => g.lpo_item == itemId)).map (fun g => g.qty_received)) Dec.zero

def setL (ls : List LPO) (lpo : LPO) : List LPO :=
  ls.map (fun l => if l.id == lpo.id then lpo else l)

/-- Saving a mutated order row back: replace by primary key. -/
def setLPO (db : DB) (lpo : LPO) : DB := { db with lpos := setL db.lpos lpo }

/-- `LPO.is_editable` (models.py:99-101). -/
def LPO.is_editable (l : LPO) : Bool := l.status == .draft || l.status == .submitted

-- ===== sequence allocator (services.py:21-51, views.py:156-160) =====

/-- `LPOSequence.objects.select_for_update().get_or_create(year=year)`:
return the locked row for the year, creating it with the default
`counter = 0` when the year rolls over. -/
def getOrCreateSeq (db : DB) (year : Nat) : DB × LPOSequence :=
  match db.seqs.find? (fun s => s.year == year) with
  | some s => (db, s)
  | none =>
    let s : LPOSequence := ⟨year, 0⟩
    ({ db with seqs := db.seqs ++ [s] }, s)

/-- `_next_year_counter` (services.py:21-31): lock the per-year row,
increment, save, return `(year, counter)`.  The same read-increment-write
on the same table is inlined in `LPOViewSet.perform_create`
(views.py:156-160). -/
def nextYearCounter (db : DB) (year : Nat) : DB × Nat × Nat :=
  let p := getOrCreateSeq db year
  let c := p.2.counter + 1
  ({ p.1 with seqs := p.1.seqs.map (fun s => if s.year == year then { s with counter := c } else s) },
   year, c)

/-- Python `f"{n:06d}"`. -/
def pad6 (n : Nat) : String :=
  let s := toString n
  String.mk (List.replicate (6 - s.length) '0') ++ s

def formatSeqNumber (pfx : String) (year : Nat) (n : Nat) : String :=
  pfx ++ "-" ++ toString year ++ "-" ++ pad6 n

/-- `next_lpo_number` (services.py:34-41). -/
def next_lpo_number (db : DB) (year : Nat) : DB × String :=
  let r := nextYearCounter db year
  (r.1, formatSeqNumber "LPO" r.2.1 r.2.2)

/-- `next_supplier_code` (services.py:44-51).  Its docstring: "Shares the
yearly counter with LPOs (simple, single-tenant design)" — it calls the
same `_next_year_counter` over the same `LPOSequence` table. -/
def next_supplier_code (db : DB) (year : Nat) : DB × String :=
  let r := nextYearCounter db year
  (r.1, formatSeqNumber "SUP" r.2.1 r.2.2)

-- ===== suppliers (serializers.py:18-53) =====

/-- Python `str.strip()`: drop leading and trailing whitespace. -/
def pyStrip (s : String) : String :=
  String.mk (((s.data.dropWhile Char.isWhitespace).reverse.dropWhile Char.isWhitespace).reverse)

/-- Python `str.lower()` (ASCII case mapping suffices for these fields). -/
def pyLower (s : String) : String := String.mk (s.data.map Char.toLower)

/-- Python `str.upper()`. -/
def pyUpper (s : String) : String := String.mk (s.data.map Char.toUpper)

/-- Django `__iexact`: case-insensitive string equality. -/
def iexact (a b : String) : Bool := pyLower a == pyLower b

structure SupplierReq where
  name : String
  email : String
  phone : String
  rc_number : String
  tax_id : String
  is_active : Bool
deriving DecidableEq, Repr

/-- `SupplierSerializer.validate` (serializers.py:27-48) on the create path
(`self.instance` is `None`, so no row is excluded).  The queryset is
`Supplier.objects.all()`: active and inactive suppliers alike take part in
every duplicate check. -/
def supplierValidate (db : DB) (attrs : SupplierReq) : Except Err Unit :=
  let name := pyStrip attrs.name
  let phone := pyStrip attrs.phone
  let email := pyLower (pyStrip attrs.email)
  let rc := pyUpper (pyStrip attrs.rc_number)
  let tin := pyUpper (pyStrip attrs.tax_id)
  let qs := db.suppliers
  if name != "" && phone != "" && qs.any (fun s => iexact s.name name && s.phone == phone) then
    .error .supplierDupNamePhone
  else if name != "" && email != "" && qs.any (fun s => iexact s.name name && iexact s.email email) then
    .error .supplierDupNameEmail
  else if rc != "" && qs.any (fun s => iexact s.rc_number rc) then
    .error .supplierDupRcNumber
  else if tin != "" && qs.any (fun s => iexact s.tax_id tin) then
    .error .supplierDupTaxId
  else
    .ok ()

/-- `SupplierSerializer.create` (serializers.py:50-53): validate, assign the
next supplier code, insert. -/
def createSupplier (db : DB) (year : Nat) (attrs : SupplierReq) : Except Err DB :=
  match supplierValidate db attrs with
  | .error e => .error e
  | .ok _ =>
    let r := next_supplier_code db year
    let s : Supplier := ⟨r.1.nextSupplierId, r.2, attrs.name, attrs.email, attrs.phone,
                         attrs.rc_number, attrs.tax_id, attrs.is_active⟩
    .ok { r.1 with suppliers := r.1.suppliers ++ [s],
                   nextSupplierId := r.1.nextSupplierId + 1 }

-- ===== LPO create / update (serializers.py:63-322, views.py:152-175) =====

structure LPOItemReq where
  inventory_item : Option Nat
  description : String
  qty : Dec
  unit_price : Dec
deriving DecidableEq, Repr

/-- `LPOItemSerializer.validate` (serializers.py:90-98) and
`LPOSerializer.validate_items` (serializers.py:224-232): at least one item,
each with an inventory reference or a description, `qty > 0` and
`unit_price ≥ 0`. -/
def validateItems (items : List LPOItemReq) : Except Err Unit :=
  if items.isEmpty then .error .itemRequired
  else if items.any (fun i => i.inventory_item == none && pyStrip i.description == "") then
    .error .itemDescriptionMissing
  else if items.any (fun i => Dec.ble i.qty Dec.zero) then .error .itemQtyNotPositive
  else if items.any (fun i => Dec.blt i.unit_price Dec.zero) then .error .itemUnitPriceNegative
  else .ok ()

/-- `LPOSerializer.validate` (serializers.py:268-275): when tax is enabled
and a rate is given, derive `tax_amount` from the incoming items' subtotal,
quantized to two places; otherwise keep the supplied amount. -/
def computeTax (items : List LPOItemReq) (tax_enabled : Bool) (tax_rate : Option Dec)
    (tax_amount : Dec) : Dec :=
  let subtotal := Dec.sumD (items.map (fun i => Dec.mul i.qty i.unit_price)) Dec.zero
  match tax_enabled, tax_rate with
  | true, some r => Dec.quantize2 (Dec.mul subtotal (Dec.divPow10 r 2))
  | _, _ => tax_amount

/-- Line-item rows for a request, with consecutive fresh primary keys;
`LPOItem.save` (models.py:158-160) sets `line_total = qty * unit_price`. -/
def mkItems (lpoId : Nat) (firstId : Nat) : List LPOItemReq → List LPOItem
  | [] => []
  | i :: rest =>
    ⟨firstId, lpoId, i.inventory_item, i.description, i.qty, i.unit_price,
     Dec.mul i.qty i.unit_price⟩ :: mkItems lpoId (firstId + 1) rest

/-- `LPO.recompute_totals` (models.py:103-106). -/
def recompute_totals (db : DB) (lpo : LPO) : LPO :=
  let subtotal := Dec.sumD ((itemsOf db lpo.id).map (fun i => i.line_total)) Dec.zero2
  { lpo with subtotal := subtotal,
             grand_total := Dec.sub (Dec.add subtotal lpo.tax_amount) lpo.discount_amount }

structure LPOCreateReq where
  supplierId : Nat
  items : List LPOItemReq
  tax_enabled : Bool
  tax_rate : Option Dec
  tax_amount : Dec
  discount_amount : Dec
deriving DecidableEq, Repr

/-- `LPOSerializer.create` (serializers.py:282-299) as driven by
`LPOViewSet.perform_create` (views.py:152-175): validate items and tax,
allocate the yearly number, insert the order (status `draft`) and its
items, `recompute_totals`, and write a "create" audit entry.  The supplier
is given by id (resolution of a free-text `supplier_name` is a lookup
convenience not needed by any claim). -/
def createLPO (db : DB) (year : Nat) (req : LPOCreateReq) : Except Err DB :=
  match validateItems req.items with
  | .error e => .error e
  | .ok _ =>
    if (db.suppliers.find? (fun s => s.id == req.supplierId)).isNone then .error .supplierMissing
    else
      let tax := computeTax req.items req.tax_enabled req.tax_rate req.tax_amount
      let r := nextYearCounter db year
      let db1 := r.1
      let lpoId := db1.nextLpoId
      let lpo0 : LPO := ⟨lpoId, req.supplierId, formatSeqNumber "LPO" r.2.1 r.2.2, .draft,
                         Dec.zero2, tax, req.discount_amount, Dec.zero2⟩
      let db2 := { db1 with lpos := db1.lpos ++ [lpo0],
                            lpoItems := db1.lpoItems ++ mkItems lpoId db1.nextItemId req.items,
                            nextLpoId := lpoId + 1,
                            nextItemId := db1.nextItemId + req.items.length }
      let db3 := setLPO db2 (recompute_totals db2 lpo0)
      .ok { db3 with audits := db3.audits ++ [⟨"create", some lpoId, none⟩] }

structure LPOUpdateReq where
  items : Option (List LPOItemReq)
  tax_enabled : Bool
  tax_rate : Option Dec
  tax_amount : Option Dec
  discount_amount : Option Dec
deriving DecidableEq, Repr

/-- `LPOSerializer.update` (serializers.py:301-322) with
`LPOSerializer.validate` applied first, as on the view's update path
(views.py:179-202, which also writes an "update" audit entry).  Replacing
the item list runs `instance.items.all().delete()`; the
`GoodsReceiptItem.lpo_item` foreign key is `on_delete=PROTECT`
(models.py:191), so the delete is refused while any receipt item references
one of this order's line items. -/
def updateLPO (db : DB) (lpoId : Nat) (req : LPOUpdateReq) : Except Err DB :=
  let check : Except Err Unit := match req.items with
    | some its => validateItems its
    | none => .ok ()
  match check with
  | .error e => .error e
  | .ok _ =>
    match findLPO db lpoId with
    | none => .error .lpoNotFound
    | some lpo =>
      if lpo.is_editable then
        -- serializer.validate recomputes tax_amount from the rate over the
        -- incoming items (an absent items key contributes an empty list)
        let itemsForTax := req.items.getD []
        let taxOverride : Option Dec := match req.tax_enabled, req.tax_rate with
          | true, some r =>
            some (Dec.quantize2 (Dec.mul
              (Dec.sumD (itemsForTax.map (fun i => Dec.mul i.qty i.unit_price)) Dec.zero)
              (Dec.divPow10 r 2)))
          | _, _ => none
        let lpo1 := { lpo with
          tax_amount := ((taxOverride.orElse (fun _ => req.tax_amount)).getD lpo.tax_amount),
          discount_amount := req.discount_amount.getD lpo.discount_amount }
        match req.items with
        | some its =>
          if db.grnItems.any (fun g => (itemsOf db lpoId).any (fun i => i.id == g.lpo_item)) then
            .error .protectedReceipts
          else
            let db1 := { db with
              lpoItems := (db.lpoItems.filter (fun i => i.lpoId != lpoId)) ++
                          mkItems lpoId db.nextItemId its,
              nextItemId := db.nextItemId + its.length }
            let db2 := setLPO db1 (recompute_totals db1 lpo1)
            .ok { db2 with audits := db2.audits ++ [⟨"update", some lpoId, none⟩] }
        | none =>
          let db2 := setLPO db (recompute_totals db lpo1)
          .ok { db2 with audits := db2.audits ++ [⟨"update", some lpoId, none⟩] }
      else .error .notEditable

-- ===== status transitions (models.py:118-139, views.py:227-288) =====

/-- `LPO.submit` (models.py:118-125), as invoked by `LPOViewSet.submit`
(views.py:227-248), which saves the new status and writes a "submitted"
audit entry; the raised error leaves the order unchanged. -/
def submitLPO (db : DB) (lpoId : Nat) : Except Err DB :=
  match findLPO db lpoId with
  | none => .error .lpoNotFound
  | some lpo =>
    if lpo.status ≠ Status.draft then .error .onlyDraftCanSubmit
    else if (itemsOf db lpoId).length == 0 || Dec.ble lpo.grand_total Dec.zero then
      .error .emptyOrZeroTotal
    else
      let db1 := setLPO db { lpo with status := .submitted }
      .ok { db1 with audits := db1.audits ++ [⟨"submitted", some lpoId, none⟩] }

/-- `LPO.approve` (models.py:127-134) via `LPOViewSet.approve`
(views.py:251-270). -/
def approveLPO (db : DB) (lpoId : Nat) : Except Err DB :=
  match findLPO db lpoId with
  | none => .error .lpoNotFound
  | some lpo =>
    if lpo.status ≠ Status.submitted then .error .onlySubmittedCanApprove
    else if (itemsOf db lpoId).length == 0 || Dec.ble lpo.grand_total Dec.zero then
      .error .cannotApproveEmpty
    else
      let db1 := setLPO db { lpo with status := .approved }
      .ok { db1 with audits := db1.audits ++ [⟨"approved", some lpoId, none⟩] }

/-- `LPO.cancel` (models.py:136-139) via `LPOViewSet.cancel`
(views.py:273-288). -/
def cancelLPO (db : DB) (lpoId : Nat) : Except Err DB :=
  match findLPO db lpoId with
  | none => .error .lpoNotFound
  | some lpo =>
    if lpo.status = Status.fulfilled ∨ lpo.status = Status.cancelled then .error .cannotCancel
    else
      let db1 := setLPO db { lpo with status := .cancelled }
      .ok { db1 with audits := db1.audits ++ [⟨"cancelled", some lpoId, none⟩] }

-- ===== goods receipt (serializers.py:337-404, views.py:489-497) =====

structure GRNItemReq where
  lpo_item : Nat
  qty_received : Dec
deriving DecidableEq, Repr

/-- The stock update on receipt (serializers.py:393-397): `InventoryEntry`
has a `quantity` field and no `increase_stock` method, so the received
amount is added to `quantity`; a null `inventory_item` updates nothing. -/
def increaseStock (db : DB) (inv : Option Nat) (qty : Dec) : DB :=
  match inv with
  | none => db
  | some invId =>
    let upd := fun (e : InventoryEntry) =>
      if e.id == invId then { e with quantity := Dec.add e.quantity qty } else e
    { db with inventory := db.inventory.map upd }

/-- `total_ordered` of `LPO.refresh_receive_status` (models.py:109): the
summed ordered quantity over all the order's line items. -/
def totalOrderedOf (db : DB) (lpoId : Nat) : Dec :=
  Dec.sumD ((itemsOf db lpoId).map (fun i => i.qty)) Dec.zero

/-- `total_received` of `LPO.refresh_receive_status` (models.py:110): the
summed received quantity over all the order's line items. -/
def totalReceivedOf (db : DB) (lpoId : Nat) : Dec :=
  Dec.sumD ((itemsOf db lpoId).map (fun i => totalReceived db.grnItems i.id)) Dec.zero

/-- `LPO.refresh_receive_status` (models.py:108-116): totals over all the
order's line items; no change when nothing has been received. -/
def refresh_receive_status (db : DB) (lpo : LPO) : LPO :=
  let its := itemsOf db lpo.id
  let total_ordered := Dec.sumD (its.map (fun i => i.qty)) Dec.zero
  let total_received := Dec.sumD (its.map (fun i => totalReceived db.grnItems i.id)) Dec.zero
  if Dec.beq total_received Dec.zero then lpo
  else if Dec.ble total_ordered total_received then { lpo with status := .fulfilled }
  else { lpo with status := .partiallyReceived }

/-- The per-item loop of `GoodsReceiptSerializer.create`
(serializers.py:383-397): lock the line item, compare the requested amount
against `remaining = qty - total_received`, insert the receipt item, update
stock.  A failed comparison raises, aborting the surrounding transaction. -/
def receiveLoop (db : DB) (grnId : Nat) : List GRNItemReq → Except Err DB
  | [] => .ok db
  | it :: rest =>
    match findLPOItem db it.lpo_item with
    | none => .error .lpoItemNotFound
    | some lpoItem =>
      let remaining := Dec.sub lpoItem.qty (totalReceived db.grnItems lpoItem.id)
      if Dec.blt remaining it.qty_received then .error (.qtyExceedsRemaining remaining)
      else
        let db1 := { db with grnItems := db.grnItems ++ [⟨grnId, it.lpo_item, it.qty_received⟩] }
        receiveLoop (increaseStock db1 lpoItem.inventory_item it.qty_received) grnId rest

/-- `GoodsReceiptSerializer.validate` and `create` (serializers.py:355-404)
with the `GRNItemIn` field validation (serializers.py:337-344) and the
"create" audit entry of `GoodsReceiptViewSet.perform_create`
(views.py:489-497).  The whole of `create` runs in `transaction.atomic`, so
a raised error persists nothing: callers keep the old state on `.error`. -/
def receive (db : DB) (lpoId : Nat) (items : List GRNItemReq) : Except Err DB :=
  if items.any (fun it => (findLPOItem db it.lpo_item).isNone) then .error .lpoItemNotFound
  else if items.any (fun it => Dec.ble it.qty_received Dec.zero) then .error .qtyReceivedNotPositive
  else
    match findLPO db lpoId with
    | none => .error .lpoNotFound
    | some lpo =>
      if lpo.status = Status.approved ∨ lpo.status = Status.partiallyReceived then
        if items.isEmpty then .error .receiptItemsRequired
        else
          let grnId := db.nextGrnId
          let db1 := { db with grns := db.grns ++ [⟨grnId, lpoId⟩], nextGrnId := grnId + 1 }
          match receiveLoop db1 grnId items with
          | .error e => .error e
          | .ok db2 =>
            match findLPO db2 lpoId with
            | none => .error .lpoNotFound
            | some lpo2 =>
              let db3 := setLPO db2 (refresh_receive_status db2 lpo2)
              .ok { db3 with audits := db3.audits ++
                      [⟨"received", some lpoId, some grnId⟩, ⟨"create", none, some grnId⟩] }
      else .error .onlyApprovedOrPartialCanReceive

/-- The observable effect of one POST to the receipt endpoint: the new
state on success, the unchanged state when the transaction aborts. -/
def applyReceive (db : DB) (lpoId : Nat) (items : List GRNItemReq) : DB :=
  match receive db lpoId items with
  | .ok db' => db'
  | .error _ => db

/-- The observable effect of one submit request. -/
def applySubmit (db : DB) (lpoId : Nat) : DB :=
  match submitLPO db lpoId with
  | .ok db' => db'
  | .error _ => db

-- ===== reachable states =====

/-- One successful state-changing operation of the procurement core. -/
inductive Step : DB → DB → Prop where
  | supplier (db : DB) (year : Nat) (req : SupplierReq) (db' : DB)
      (h : createSupplier db year req = .ok db') : Step db db'
  | create (db : DB) (year : Nat) (req : LPOCreateReq) (db' : DB)
      (h : createLPO db year req = .ok db') : Step db db'
  | update (db : DB) (lpoId : Nat) (req : LPOUpdateReq) (db' : DB)
      (h : updateLPO db lpoId req = .ok db') : Step db db'
  | submit (db : DB) (lpoId : Nat) (db' : DB)
      (h : submitLPO db lpoId = .ok db') : Step db db'
  | approve (db : DB) (lpoId : Nat) (db' : DB)
      (h : approveLPO db lpoId = .ok db') : Step db db'
  | cancel (db : DB) (lpoId : Nat) (db' : DB)
      (h : cancelLPO db lpoId = .ok db') : Step db db'
  | received (db : DB) (lpoId : Nat) (items : List GRNItemReq) (db' : DB)
      (h : receive db lpoId items = .ok db') : Step db db'

/-- States reachable from the empty store by the operations above (failed
operations leave the store unchanged and so add no edges). -/
inductive Reachable : DB → Prop where
  | init : Reachable initDB
  | step {db db' : DB} : Reachable db → Step db db' → Reachable db'

/-- The counter currently stored for a year (0 when no row exists yet). -/
def seqCounter (db : DB) (year : Nat) : Nat :=
  ((db.seqs.find? (fun s => s.year == year)).map LPOSequence.counter).getD 0

/-- The invariant maintained by every operation of the core: quantity
bookkeeping (no line item over-received), freshness and uniqueness of the
autoincrement keys, line and order totals consistent with the stored
items, and a nonempty item list behind every receivable order. -/
structure Inv (db : DB) : Prop where
  received_le : ∀ it ∈ db.lpoItems, (totalReceived db.grnItems it.id).toRat ≤ it.qty.toRat
  items_fresh : ∀ it ∈ db.lpoItems, it.id < db.nextItemId
  grn_fresh : ∀ g ∈ db.grnItems, g.lpo_item < db.nextItemId
  items_nodup : (db.lpoItems.map LPOItem.id).Nodup
  lpos_fresh : ∀ l ∈ db.lpos, l.id < db.nextLpoId
  item_lpo_fresh : ∀ it ∈ db.lpoItems, it.lpoId < db.nextLpoId
  line_totals : ∀ it ∈ db.lpoItems, it.line_total = Dec.mul it.qty it.unit_price
  qty_pos : ∀ it ∈ db.lpoItems, 0 < it.qty.toRat
  totals_ok : ∀ l ∈ db.lpos,
    l.grand_total = Dec.sub (Dec.add l.subtotal l.tax_amount) l.discount_amount ∧
    l.subtotal = Dec.sumD ((itemsOfList db.lpoItems l.id).map (fun i => i.line_total)) Dec.zero2
  status_items : ∀ l ∈ db.lpos,
    (l.status = Status.approved ∨ l.status = Status.partiallyReceived) →
    itemsOfList db.lpoItems l.id ≠ []

-- ===== concrete states used by the witnesses =====

/-- Unpack a successful operation result (the scenarios below only ever
take the `.ok` branch, as the accompanying theorems prove). -/
def okOr (r : Except Err DB) (fallback : DB) : DB :=
  match r with
  | .ok d => d
  | .error _ => fallback

def reqS : SupplierReq := ⟨"Hardware Hub", "", "080111", "", "", true⟩

/-- Store after creating one supplier. -/
def dbS : DB := okOr (createSupplier initDB 2025 reqS) initDB

/-- One line item: qty 10.00 at unit price 1.50. -/
def reqC : LPOCreateReq :=
  ⟨0, [⟨none, "Bolt", ⟨1000, 2⟩, ⟨150, 2⟩⟩], true, none, Dec.zero2, Dec.zero2⟩

def dbC : DB := okOr (createLPO dbS 2025 reqC) dbS

def dbSub : DB := okOr (submitLPO dbC 0) dbC

/-- Approved order, one line item of qty 10, nothing received. -/
def dbA : DB := okOr (approveLPO dbSub 0) dbSub

/-- After receiving 4.00 against the item: partially received. -/
def dbP : DB := okOr (receive dbA 0 [⟨0, ⟨400, 2⟩⟩]) dbA

/-- After further receiving 6.00: fulfilled. -/
def dbF : DB := okOr (receive dbP 0 [⟨0, ⟨600, 2⟩⟩]) dbP

/-- After receiving 5.00 against the approved order: remaining 5. -/
def dbQ : DB := okOr (receive dbA 0 [⟨0, ⟨500, 2⟩⟩]) dbA

/-- After one of the two racing receipts of 3.00: remaining 2. -/
def dbQ1 : DB := okOr (receive dbQ 0 [⟨0, ⟨300, 2⟩⟩]) dbQ

/-- An order whose single line is free of charge: grand total 0. -/
def reqZ : LPOCreateReq :=
  ⟨0, [⟨none, "Gratis", ⟨100, 2⟩, ⟨0, 2⟩⟩], true, none, Dec.zero2, Dec.zero2⟩

def dbZ : DB := okOr (createLPO dbS 2025 reqZ) dbS

/-- A store with one active supplier on record, for the duplicate checks. -/
def dbDup : DB :=
  { initDB with suppliers := [⟨0, "SUP-2025-000001", "Acme Ltd", "sales@acme.test", "0801",
                               "rc-99", "tin-7", true⟩],
                nextSupplierId := 1 }

/-- A store whose only matching supplier is inactive. -/
def dbDupInactive : DB :=
  { initDB with suppliers := [⟨0, "SUP-2025-000001", "Acme Ltd", "sales@acme.test", "0801",
                               "rc-99", "tin-7", false⟩],
                nextSupplierId := 1 }

-- ===== semantics of the decimal operations =====

namespace Dec

theorem scale_div (n : Int) (e e' : Nat) (h : e ≤ e') :
    (((n * (10:Int) ^ (e' - e) : Int)) : Rat) / (10 : Rat) ^ e' = (n : Rat) / (10 : Rat) ^ e := by
  obtain ⟨k, rfl⟩ : ∃ k, e' = e + k := ⟨e' - e, by omega⟩
  have hk : e + k - e = k := by omega
  rw [hk]
  push_cast
  rw [pow_add, mul_div_mul_right _ _ (by positivity)]

theorem align_toRat (a b : Dec) :
    ((align a b).1 : Rat) / (10 : Rat) ^ (align a b).2.2 = a.toRat ∧
    ((align a b).2.1 : Rat) / (10 : Rat) ^ (align a b).2.2 = b.toRat := by
  unfold align toRat
  exact ⟨scale_div a.num a.exp _ (le_max_left _ _),
         scale_div b.num b.exp _ (le_max_right _ _)⟩

theorem toRat_add (a b : Dec) : (add a b).toRat = a.toRat + b.toRat := by
  have h := align_toRat a b
  unfold add toRat at *
  push_cast
  rw [add_div, h.1, h.2]

theorem toRat_sub (a b : Dec) : (sub a b).toRat = a.toRat - b.toRat := by
  have h := align_toRat a b
  unfold sub toRat at *
  push_cast
  rw [sub_div, h.1, h.2]

theorem toRat_mul (a b : Dec) : (mul a b).toRat = a.toRat * b.toRat := by
  unfold mul toRat
  push_cast
  rw [pow_add]
  ring

theorem ble_iff (a b : Dec) : ble a b = true ↔ a.toRat ≤ b.toRat := by
  have h := align_toRat a b
  rw [← h.1, ← h.2]
  unfold ble
  rw [div_le_div_iff_of_pos_right (by positivity)]
  simp

theorem blt_iff (a b : Dec) : blt a b = true ↔ a.toRat < b.toRat := by
  have h := align_toRat a b
  rw [← h.1, ← h.2]
  unfold blt
  rw [div_lt_div_iff_of_pos_right (by positivity)]
  simp

theorem beq_iff (a b : Dec) : beq a b = true ↔ a.toRat = b.toRat := by
  have h := align_toRat a b
  rw [← h.1, ← h.2]
  unfold beq
  simp only [beq_iff_eq]
  constructor
  · intro hx
    rw [hx]
  · intro hx
    have h10 : ((10:Rat) ^ (align a b).2.2) ≠ 0 := by positivity
    field_simp at hx
    exact_mod_cast hx

theorem ble_eq_false_iff (a b : Dec) : ble a b = false ↔ b.toRat < a.toRat := by
  rw [← not_le, ← ble_iff]
  cases ble a b <;> simp

theorem blt_eq_false_iff (a b : Dec) : blt a b = false ↔ b.toRat ≤ a.toRat := by
  rw [← not_lt, ← blt_iff]
  cases blt a b <;> simp

theorem beq_eq_false_iff (a b : Dec) : beq a b = false ↔ a.toRat ≠ b.toRat := by
  rw [Ne, ← beq_iff]
  cases beq a b <;> simp

theorem zero_toRat : zero.toRat = 0 := by
  unfold zero toRat
  norm_num

theorem zero2_toRat : zero2.toRat = 0 := by
  unfold zero2 toRat
  norm_num

theorem sumD_toRat (l : List Dec) (init : Dec) :
    (sumD l init).toRat = init.toRat + (l.map toRat).sum := by
  induction l generalizing init with
  | nil => simp [sumD]
  | cons x xs ih =>
    show (sumD xs (add init x)).toRat = _
    rw [ih, toRat_add]
    simp only [List.map_cons, List.sum_cons]
    ring

end Dec

-- ===== helper lemmas about the queries =====

theorem totalReceived_toRat (gs : List GoodsReceiptItem) (j : Nat) :
    (totalReceived gs j).toRat =
      ((gs.filter (fun g => g.lpo_item == j)).map (fun g => g.qty_received.toRat)).sum := by
  unfold totalReceived
  rw [Dec.sumD_toRat, Dec.zero_toRat, List.map_map, zero_add]
  rfl

theorem totalReceived_append_one (gs : List GoodsReceiptItem) (g : GoodsReceiptItem) (j : Nat) :
    (totalReceived (gs ++ [g]) j).toRat =
      (totalReceived gs j).toRat + (if g.lpo_item = j then g.qty_received.toRat else 0) := by
  rw [totalReceived_toRat, totalReceived_toRat, List.filter_append, List.map_append,
      List.sum_append]
  congr 1
  by_cases h : g.lpo_item = j
  · have hb : (g.lpo_item == j) = true := by simpa using h
    simp [List.filter, hb, h]
  · have hb : (g.lpo_item == j) = false := by simpa using h
    simp [List.filter, hb, h]

theorem totalReceived_eq_zero_of_fresh (gs : List GoodsReceiptItem) (j : Nat)
    (h : ∀ g ∈ gs, g.lpo_item ≠ j) : totalReceived gs j = Dec.zero := by
  unfold totalReceived
  have : gs.filter (fun g => g.lpo_item == j) = [] := by
    rw [List.filter_eq_nil_iff]
    intro g hg
    simpa using h g hg
  rw [this]
  rfl

theorem findL_mem {ls : List LPO} {i : Nat} {l : LPO} (h : findL ls i = some l) :
    l ∈ ls ∧ l.id = i := by
  unfold findL at h
  refine ⟨List.mem_of_find?_eq_some h, ?_⟩
  have := List.find?_some h
  simpa using this

theorem findIt_mem {its : List LPOItem} {i : Nat} {x : LPOItem} (h : findIt its i = some x) :
    x ∈ its ∧ x.id = i := by
  unfold findIt at h
  refine ⟨List.mem_of_find?_eq_some h, ?_⟩
  have := List.find?_some h
  simpa using this

theorem setL_mem {ls : List LPO} {lpo y : LPO} (h : y ∈ setL ls lpo) :
    y = lpo ∨ (y ∈ ls ∧ y.id ≠ lpo.id) := by
  unfold setL at h
  obtain ⟨x, hx, hxy⟩ := List.mem_map.mp h
  by_cases hid : x.id = lpo.id
  · left
    simpa [hid] using hxy.symm
  · right
    have : y = x := by simpa [hid] using hxy.symm
    exact ⟨this ▸ hx, by rw [this]; exact hid⟩

theorem findL_setL {ls : List LPO} {lpo x : LPO} (h : findL ls lpo.id = some x) :
    findL (setL ls lpo) lpo.id = some lpo := by
  induction ls with
  | nil => simp [findL] at h
  | cons a as ih =>
    by_cases hid : a.id = lpo.id
    · simp [findL, setL, hid]
    · have hb : (a.id == lpo.id) = false := by simpa using hid
      have h' : findL as lpo.id = some x := by
        simpa [findL, List.find?, hb] using h
      have := ih h'
      simpa [findL, setL, hb, List.find?] using this

theorem map_id_of {α : Type} {l : List α} {f : α → α} (h : ∀ a ∈ l, f a = a) :
    l.map f = l := by
  induction l with
  | nil => rfl
  | cons a as ih =>
    simp only [List.map_cons, h a (by simp)]
    rw [ih (fun x hx => h x (by simp [hx]))]

theorem itemsOfList_append (l1 l2 : List LPOItem) (i : Nat) :
    itemsOfList (l1 ++ l2) i = itemsOfList l1 i ++ itemsOfList l2 i := by
  simp [itemsOfList, List.filter_append]

theorem itemsOfList_eq_nil_of (l : List LPOItem) (i : Nat) (h : ∀ x ∈ l, x.lpoId ≠ i) :
    itemsOfList l i = [] := by
  unfold itemsOfList
  rw [List.filter_eq_nil_iff]
  intro x hx
  simpa using h x hx

-- ===== facts about the operations =====

theorem nextYearCounter_core (db : DB) (year : Nat) :
    ((nextYearCounter db year).1).suppliers = db.suppliers ∧
    ((nextYearCounter db year).1).lpos = db.lpos ∧
    ((nextYearCounter db year).1).lpoItems = db.lpoItems ∧
    ((nextYearCounter db year).1).grnItems = db.grnItems ∧
    ((nextYearCounter db year).1).nextItemId = db.nextItemId ∧
    ((nextYearCounter db year).1).nextLpoId = db.nextLpoId ∧
    ((nextYearCounter db year).1).audits = db.audits := by
  unfold nextYearCounter getOrCreateSeq
  cases h : db.seqs.find? (fun s => s.year == year) <;> simp [h]

theorem increaseStock_core (db : DB) (inv : Option Nat) (q : Dec) :
    (increaseStock db inv q).suppliers = db.suppliers ∧
    (increaseStock db inv q).lpos = db.lpos ∧
    (increaseStock db inv q).lpoItems = db.lpoItems ∧
    (increaseStock db inv q).grnItems = db.grnItems ∧
    (increaseStock db inv q).audits = db.audits ∧
    (increaseStock db inv q).nextItemId = db.nextItemId ∧
    (increaseStock db inv q).nextLpoId = db.nextLpoId := by
  cases inv <;> simp [increaseStock]

theorem mkItems_spec (lpoId : Nat) (rs : List LPOItemReq) : ∀ (f : Nat),
    (∀ it ∈ mkItems lpoId f rs, it.lpoId = lpoId ∧ f ≤ it.id ∧ it.id < f + rs.length ∧
      it.line_total = Dec.mul it.qty it.unit_price ∧ ∃ r ∈ rs, it.qty = r.qty) ∧
    ((mkItems lpoId f rs).map LPOItem.id).Nodup := by
  induction rs with
  | nil =>
    intro f
    exact ⟨by simp [mkItems], by simp [mkItems]⟩
  | cons r rest ih =>
    intro f
    obtain ⟨ihm, ihn⟩ := ih (f + 1)
    constructor
    · intro it hit
      rcases List.mem_cons.mp hit with rfl | hmem
      · refine ⟨rfl, le_refl f, by simp only [List.length_cons]; omega, rfl, ⟨r, by simp, rfl⟩⟩
      · obtain ⟨h1, h2, h3, h4, rr, hrr, hq⟩ := ihm it hmem
        exact ⟨h1, by omega, by simp only [List.length_cons]; omega, h4,
               rr, by simp [hrr], hq⟩
    · simp only [mkItems, List.map_cons]
      refine List.nodup_cons.mpr ⟨?_, ihn⟩
      intro hmem
      obtain ⟨x, hx, hxid⟩ := List.mem_map.mp hmem
      obtain ⟨_, h2, _, _, _⟩ := ihm x hx
      omega

theorem validateItems_ok {rs : List LPOItemReq} (h : validateItems rs = .ok ()) :
    rs ≠ [] ∧ (∀ r ∈ rs, Dec.ble r.qty Dec.zero = false) := by
  unfold validateItems at h
  split at h
  next he => exact absurd h (by simp)
  next he =>
    split at h
    next => exact absurd h (by simp)
    next =>
      split at h
      next => exact absurd h (by simp)
      next hq =>
        refine ⟨fun hnil => he (by simp [hnil]), fun r hr => ?_⟩
        by_contra hb
        have hb' : Dec.ble r.qty Dec.zero = true := by
          cases hble : Dec.ble r.qty Dec.zero
          · exact absurd hble hb
          · rfl
        exact hq (List.any_eq_true.mpr ⟨r, hr, hb'⟩)

theorem qty_pos_of_ble_false {q : Dec} (h : Dec.ble q Dec.zero = false) : 0 < q.toRat := by
  have := (Dec.ble_eq_false_iff q Dec.zero).mp h
  rwa [Dec.zero_toRat] at this

theorem receiveLoop_ok (grnId : Nat) (items : List GRNItemReq) : ∀ (db db' : DB),
    receiveLoop db grnId items = .ok db' →
    db'.suppliers = db.suppliers ∧ db'.lpos = db.lpos ∧ db'.lpoItems = db.lpoItems ∧
    db'.nextItemId = db.nextItemId ∧ db'.nextLpoId = db.nextLpoId ∧ db'.audits = db.audits ∧
    ((∀ g ∈ db.grnItems, g.lpo_item < db.nextItemId) →
     (db.lpoItems.map LPOItem.id).Nodup →
     (∀ x ∈ db.lpoItems, x.id < db.nextItemId) →
     (∀ x ∈ db.lpoItems, (totalReceived db.grnItems x.id).toRat ≤ x.qty.toRat) →
     ((∀ g ∈ db'.grnItems, g.lpo_item < db'.nextItemId) ∧
      (∀ x ∈ db'.lpoItems, (totalReceived db'.grnItems x.id).toRat ≤ x.qty.toRat))) := by
  induction items with
  | nil =>
    intro db db' h
    simp only [receiveLoop] at h
    cases h
    exact ⟨rfl, rfl, rfl, rfl, rfl, rfl, fun a _ _ b => ⟨a, b⟩⟩
  | cons it rest ih =>
    intro db db' h
    cases hfind : findLPOItem db it.lpo_item with
    | none =>
      simp only [receiveLoop, hfind] at h
      exact absurd h (by simp)
    | some I =>
      obtain ⟨hImem, hIid⟩ := findIt_mem hfind
      simp only [receiveLoop, hfind] at h
      by_cases hblt :
          Dec.blt (Dec.sub I.qty (totalReceived db.grnItems I.id)) it.qty_received = true
      · rw [if_pos hblt] at h
        exact absurd h (by simp)
      · rw [if_neg hblt] at h
        have hqle : it.qty_received.toRat ≤
            I.qty.toRat - (totalReceived db.grnItems I.id).toRat := by
          have := (Dec.blt_eq_false_iff _ _).mp (by
            cases hb : Dec.blt (Dec.sub I.qty (totalReceived db.grnItems I.id)) it.qty_received
            · rfl
            · exact absurd hb hblt)
          rwa [Dec.toRat_sub] at this
        set g : GoodsReceiptItem := ⟨grnId, it.lpo_item, it.qty_received⟩ with hg
        set db1 : DB := { db with grnItems := db.grnItems ++ [g] } with hdb1
        set dbn : DB := increaseStock db1 I.inventory_item it.qty_received with hdbn
        have hc := increaseStock_core db1 I.inventory_item it.qty_received
        obtain ⟨s1, s2, s3, s4, s5, s6, sInv⟩ := ih dbn db' h
        have e1 : dbn.suppliers = db.suppliers := hc.1
        have e2 : dbn.lpos = db.lpos := hc.2.1
        have e3 : dbn.lpoItems = db.lpoItems := hc.2.2.1
        have e4 : dbn.grnItems = db.grnItems ++ [g] := hc.2.2.2.1
        have e5 : dbn.audits = db.audits := hc.2.2.2.2.1
        have e6 : dbn.nextItemId = db.nextItemId := hc.2.2.2.2.2.1
        have e7 : dbn.nextLpoId = db.nextLpoId := hc.2.2.2.2.2.2
        refine ⟨s1.trans e1, s2.trans e2, s3.trans e3, s4.trans e6, s5.trans e7,
                s6.trans e5, ?_⟩
        intro hgf hnd hif hrle
        have hgf' : ∀ x ∈ dbn.grnItems, x.lpo_item < dbn.nextItemId := by
          rw [e4, e6]
          intro x hx
          rcases List.mem_append.mp hx with hx | hx
          · exact hgf x hx
          · have : x = g := by simpa using hx
            rw [this, hg]
            exact hIid ▸ hif I hImem
        have hnd' : (dbn.lpoItems.map LPOItem.id).Nodup := by rw [e3]; exact hnd
        have hif' : ∀ x ∈ dbn.lpoItems, x.id < dbn.nextItemId := by
          rw [e3, e6]; exact hif
        have hrle' : ∀ x ∈ dbn.lpoItems, (totalReceived dbn.grnItems x.id).toRat ≤ x.qty.toRat := by
          rw [e3, e4]
          intro x hx
          rw [totalReceived_append_one]
          by_cases hxI : g.lpo_item = x.id
          · have hxid : x.id = I.id := by rw [← hxI, hg]; exact hIid.symm
            have hxIeq : x = I := List.inj_on_of_nodup_map hnd hx hImem hxid
            rw [if_pos hxI, hg]
            have := hrle x hx
            rw [hxid] at this ⊢
            rw [hxIeq]
            simp only [hg] at *
            linarith [hqle]
          · rw [if_neg hxI, add_zero]
            exact hrle x hx
        exact sInv hgf' hnd' hif' hrle'

theorem receiveLoop_over (grnId : Nat) (items : List GRNItemReq) : ∀ (db : DB),
    (∀ it ∈ items, (findLPOItem db it.lpo_item).isSome = true) →
    (∀ it ∈ items, 0 < it.qty_received.toRat) →
    (∃ it ∈ items, ∃ li, findLPOItem db it.lpo_item = some li ∧
        (Dec.sub li.qty (totalReceived db.grnItems li.id)).toRat < it.qty_received.toRat) →
    ∃ r, receiveLoop db grnId items = .error (Err.qtyExceedsRemaining r) := by
  induction items with
  | nil =>
    intro db _ _ hover
    simp at hover
  | cons it rest ih =>
    intro db hex hq hover
    cases hfind : findLPOItem db it.lpo_item with
    | none =>
      have := hex it (by simp)
      rw [hfind] at this
      simp at this
    | some I =>
      by_cases hblt :
          Dec.blt (Dec.sub I.qty (totalReceived db.grnItems I.id)) it.qty_received = true
      · refine ⟨Dec.sub I.qty (totalReceived db.grnItems I.id), ?_⟩
        simp only [receiveLoop, hfind]
        rw [if_pos hblt]
      · have hqle : it.qty_received.toRat ≤
            (Dec.sub I.qty (totalReceived db.grnItems I.id)).toRat :=
          (Dec.blt_eq_false_iff _ _).mp (by simpa using hblt)
        obtain ⟨w, hw, li, hli, hlt⟩ := hover
        rcases List.mem_cons.mp hw with rfl | hwrest
        · rw [hfind] at hli
          have hIli : I = li := Option.some.inj hli
          rw [← hIli] at hlt
          exact absurd hlt (not_lt.mpr hqle)
        · set g : GoodsReceiptItem := ⟨grnId, it.lpo_item, it.qty_received⟩ with hgdef
          set dbn : DB :=
            increaseStock { db with grnItems := db.grnItems ++ [g] }
              I.inventory_item it.qty_received with hdbn
          have hc := increaseStock_core { db with grnItems := db.grnItems ++ [g] }
            I.inventory_item it.qty_received
          have elpo : dbn.lpoItems = db.lpoItems := hc.2.2.1
          have egrn : dbn.grnItems = db.grnItems ++ [g] := hc.2.2.2.1
          have hfind' : ∀ x, findLPOItem dbn x = findLPOItem db x := fun x => by
            unfold findLPOItem
            rw [elpo]
          have hex' : ∀ x ∈ rest, (findLPOItem dbn x.lpo_item).isSome = true := fun x hx => by
            rw [hfind']
            exact hex x (by simp [hx])
          have hq' : ∀ x ∈ rest, 0 < x.qty_received.toRat := fun x hx => hq x (by simp [hx])
          have hover' : ∃ x ∈ rest, ∃ li', findLPOItem dbn x.lpo_item = some li' ∧
              (Dec.sub li'.qty (totalReceived dbn.grnItems li'.id)).toRat <
                x.qty_received.toRat := by
            refine ⟨w, hwrest, li, by rw [hfind']; exact hli, ?_⟩
            rw [Dec.toRat_sub] at hlt ⊢
            rw [egrn, totalReceived_append_one]
            have hq0 : 0 < it.qty_received.toRat := hq it (by simp)
            by_cases hcase : g.lpo_item = li.id
            · rw [if_pos hcase]
              have : g.qty_received = it.qty_received := rfl
              rw [this]
              linarith
            · rw [if_neg hcase]
              linarith
          obtain ⟨r, hr⟩ := ih dbn hex' hq' hover'
          refine ⟨r, ?_⟩
          simp only [receiveLoop, hfind]
          rw [if_neg hblt]
          exact hr

-- ===== preservation of the invariant =====

theorem Inv.of_core_eq {db db' : DB} (hI : Inv db)
    (h1 : db'.lpoItems = db.lpoItems) (h2 : db'.grnItems = db.grnItems)
    (h3 : db'.lpos = db.lpos) (h4 : db'.nextItemId = db.nextItemId)
    (h5 : db'.nextLpoId = db.nextLpoId) : Inv db' := by
  constructor
  · rw [h1, h2]
    exact hI.received_le
  · rw [h1, h4]
    exact hI.items_fresh
  · rw [h2, h4]
    exact hI.grn_fresh
  · rw [h1]
    exact hI.items_nodup
  · rw [h3, h5]
    exact hI.lpos_fresh
  · rw [h1, h5]
    exact hI.item_lpo_fresh
  · rw [h1]
    exact hI.line_totals
  · rw [h1]
    exact hI.qty_pos
  · rw [h3, h1]
    exact hI.totals_ok
  · rw [h3, h1]
    exact hI.status_items

/-- Replacing one order row by a row with the same id and the same totals
(only the status may differ) preserves the invariant, provided a receivable
new status is backed by a nonempty item list. -/
theorem Inv.replaceSameTotals {db : DB} (hI : Inv db) {lpo l' : LPO} (hmem : lpo ∈ db.lpos)
    (hid : l'.id = lpo.id) (hsub : l'.subtotal = lpo.subtotal)
    (htax : l'.tax_amount = lpo.tax_amount) (hdisc : l'.discount_amount = lpo.discount_amount)
    (hgrand : l'.grand_total = lpo.grand_total) (audits' : List AuditLog)
    (hne : (l'.status = Status.approved ∨ l'.status = Status.partiallyReceived) →
      itemsOfList db.lpoItems l'.id ≠ []) :
    Inv { setLPO db l' with audits := audits' } := by
  have hlpos : ({ setLPO db l' with audits := audits' } : DB).lpos = setL db.lpos l' := rfl
  constructor
  · exact hI.received_le
  · exact hI.items_fresh
  · exact hI.grn_fresh
  · exact hI.items_nodup
  · rw [hlpos]
    intro y hy
    rcases setL_mem hy with rfl | ⟨hmem', _⟩
    · rw [hid]
      exact hI.lpos_fresh lpo hmem
    · exact hI.lpos_fresh y hmem'
  · exact hI.item_lpo_fresh
  · exact hI.line_totals
  · exact hI.qty_pos
  · rw [hlpos]
    intro y hy
    rcases setL_mem hy with rfl | ⟨hmem', _⟩
    · obtain ⟨hg, hs⟩ := hI.totals_ok lpo hmem
      refine ⟨?_, ?_⟩
      · rw [hgrand, hsub, htax, hdisc]
        exact hg
      · rw [hsub, hid]
        exact hs
    · exact hI.totals_ok y hmem'
  · rw [hlpos]
    intro y hy hst
    rcases setL_mem hy with rfl | ⟨hmem', _⟩
    · exact hne hst
    · exact hI.status_items y hmem' hst

theorem pres_supplier {db db' : DB} {year : Nat} {req : SupplierReq} (hI : Inv db)
    (h : createSupplier db year req = .ok db') : Inv db' := by
  unfold createSupplier at h
  cases hv : supplierValidate db req with
  | error e =>
    rw [hv] at h
    exact absurd h (by simp)
  | ok u =>
    rw [hv] at h
    have hc := nextYearCounter_core db year
    have hdb' : db' = { (next_supplier_code db year).1 with
        suppliers := (next_supplier_code db year).1.suppliers ++
          [⟨(next_supplier_code db year).1.nextSupplierId, (next_supplier_code db year).2,
            req.name, req.email, req.phone, req.rc_number, req.tax_id, req.is_active⟩],
        nextSupplierId := (next_supplier_code db year).1.nextSupplierId + 1 } := by
      cases u
      exact (Except.ok.inj h).symm
    subst hdb'
    exact hI.of_core_eq hc.2.2.1 hc.2.2.2.1 hc.2.1 hc.2.2.2.2.1 hc.2.2.2.2.2.1

theorem pres_create {db db' : DB} {year : Nat} {req : LPOCreateReq} (hI : Inv db)
    (h : createLPO db year req = .ok db') : Inv db' := by
  unfold createLPO at h
  cases hv : validateItems req.items with
  | error e =>
    rw [hv] at h
    exact absurd h (by simp)
  | ok u =>
    cases u
    rw [hv] at h
    by_cases hsup : (db.suppliers.find? (fun s => s.id == req.supplierId)).isNone = true
    · rw [if_pos hsup] at h
      exact absurd h (by simp)
    · rw [if_neg hsup] at h
      simp only [] at h
      obtain rfl : db' = _ := (Except.ok.inj h).symm
      obtain ⟨hvne, hvq⟩ := validateItems_ok hv
      obtain ⟨cSup, cLpos, cItems, cGrn, cNext, cNextL, cAud⟩ := nextYearCounter_core db year
      set db1 : DB := (nextYearCounter db year).1 with hdb1
      set L : Nat := db1.nextLpoId with hL
      set N : Nat := db1.nextItemId with hN
      set newItems : List LPOItem := mkItems L N req.items with hnew
      obtain ⟨hmk, hmknd⟩ := mkItems_spec L req.items N
      set lpo0 : LPO := ⟨L, req.supplierId,
        formatSeqNumber "LPO" (nextYearCounter db year).2.1 (nextYearCounter db year).2.2,
        .draft, Dec.zero2, computeTax req.items req.tax_enabled req.tax_rate req.tax_amount,
        req.discount_amount, Dec.zero2⟩ with hlpo0
      set db2 : DB := { db1 with lpos := db1.lpos ++ [lpo0],
                                 lpoItems := db1.lpoItems ++ newItems,
                                 nextLpoId := L + 1,
                                 nextItemId := N + req.items.length } with hdb2
      set lpo1 : LPO := recompute_totals db2 lpo0 with hlpo1
      have hl1id : lpo1.id = L := rfl
      have enew : ∀ it ∈ newItems, it.lpoId = L ∧ N ≤ it.id ∧ it.id < N + req.items.length ∧
          it.line_total = Dec.mul it.qty it.unit_price ∧ ∃ r ∈ req.items, it.qty = r.qty := hmk
      have hnewRecv : ∀ it ∈ newItems, totalReceived db.grnItems it.id = Dec.zero := by
        intro it hit
        refine totalReceived_eq_zero_of_fresh _ _ (fun g hg => ?_)
        have h1 := hI.grn_fresh g hg
        have h2 := (enew it hit).2.1
        rw [cNext] at h2
        omega
      have hnewQty : ∀ it ∈ newItems, 0 < it.qty.toRat := by
        intro it hit
        obtain ⟨r, hr, hq⟩ := (enew it hit).2.2.2.2
        rw [hq]
        exact qty_pos_of_ble_false (hvq r hr)
      constructor
      · intro it hit
        show (totalReceived db1.grnItems it.id).toRat ≤ it.qty.toRat
        rw [cGrn]
        rcases List.mem_append.mp hit with hold | hnewm
        · rw [cItems] at hold
          exact hI.received_le it hold
        · rw [hnewRecv it hnewm, Dec.zero_toRat]
          exact le_of_lt (hnewQty it hnewm)
      · intro it hit
        show it.id < N + req.items.length
        rcases List.mem_append.mp hit with hold | hnewm
        · rw [cItems] at hold
          have := hI.items_fresh it hold
          rw [← cNext] at this
          omega
        · exact (enew it hnewm).2.2.1
      · intro g hg
        show g.lpo_item < N + req.items.length
        have hg1 : g ∈ db1.grnItems := hg
        rw [cGrn] at hg1
        have := hI.grn_fresh g hg1
        rw [← cNext] at this
        omega
      · show ((db1.lpoItems ++ newItems).map LPOItem.id).Nodup
        rw [List.map_append, List.nodup_append]
        refine ⟨by rw [cItems]; exact hI.items_nodup, hmknd, ?_⟩
        intro a ha hb
        obtain ⟨x, hx, hxa⟩ := List.mem_map.mp ha
        obtain ⟨y, hy, hya⟩ := List.mem_map.mp hb
        rw [cItems] at hx
        have h1 := hI.items_fresh x hx
        have h2 := (enew y hy).2.1
        rw [← cNext] at h1
        omega
      · intro y hy
        show y.id < L + 1
        rcases setL_mem hy with rfl | ⟨hmem', _⟩
        · rw [hl1id]
          omega
        · rcases List.mem_append.mp hmem' with hold | h0
          · rw [cLpos] at hold
            have := hI.lpos_fresh y hold
            rw [← cNextL] at this
            omega
          · have : y = lpo0 := by simpa using h0
            rw [this]
            show L < L + 1
            omega
      · intro it hit
        show it.lpoId < L + 1
        rcases List.mem_append.mp hit with hold | hnewm
        · rw [cItems] at hold
          have := hI.item_lpo_fresh it hold
          rw [← cNextL] at this
          omega
        · rw [(enew it hnewm).1]
          omega
      · intro it hit
        rcases List.mem_append.mp hit with hold | hnewm
        · rw [cItems] at hold
          exact hI.line_totals it hold
        · exact (enew it hnewm).2.2.2.1
      · intro it hit
        rcases List.mem_append.mp hit with hold | hnewm
        · rw [cItems] at hold
          exact hI.qty_pos it hold
        · exact hnewQty it hnewm
      · intro y hy
        rcases setL_mem hy with rfl | ⟨hmem', hne'⟩
        · refine ⟨rfl, ?_⟩
          show lpo1.subtotal =
            Dec.sumD ((itemsOfList (db1.lpoItems ++ newItems) lpo1.id).map
              (fun i => i.line_total)) Dec.zero2
          rfl
        · rcases List.mem_append.mp hmem' with hold | h0
          · rw [cLpos] at hold
            obtain ⟨hg, hs⟩ := hI.totals_ok y hold
            refine ⟨hg, ?_⟩
            have hyid : y.id ≠ L := by
              have := hI.lpos_fresh y hold
              rw [← cNextL] at this
              omega
            have heq : itemsOfList (db1.lpoItems ++ newItems) y.id =
                itemsOfList db.lpoItems y.id := by
              rw [itemsOfList_append, cItems, itemsOfList_eq_nil_of newItems y.id
                (fun x hx => by rw [(enew x hx).1]; exact fun hc => hyid hc.symm),
                List.append_nil]
            show y.subtotal = Dec.sumD ((itemsOfList (db1.lpoItems ++ newItems) y.id).map
              (fun i => i.line_total)) Dec.zero2
            rw [heq]
            exact hs
          · have hy0 : y = lpo0 := by simpa using h0
            rw [hy0] at hne'
            exact absurd rfl hne'
      · intro y hy hst
        rcases setL_mem hy with rfl | ⟨hmem', hne'⟩
        · have hdr : lpo1.status = Status.draft := rfl
          rw [hdr] at hst
          rcases hst with hst | hst <;> exact absurd hst (by simp)
        · rcases List.mem_append.mp hmem' with hold | h0
          · rw [cLpos] at hold
            have hyid : y.id ≠ L := by
              have := hI.lpos_fresh y hold
              rw [← cNextL] at this
              omega
            have heq : itemsOfList (db1.lpoItems ++ newItems) y.id =
                itemsOfList db.lpoItems y.id := by
              rw [itemsOfList_append, cItems, itemsOfList_eq_nil_of newItems y.id
                (fun x hx => by rw [(enew x hx).1]; exact fun hc => hyid hc.symm),
                List.append_nil]
            show itemsOfList (db1.lpoItems ++ newItems) y.id ≠ []
            rw [heq]
            exact hI.status_items y hold hst
          · have hy0 : y = lpo0 := by simpa using h0
            rw [hy0] at hst
            have hdr : lpo0.status = Status.draft := rfl
            rw [hdr] at hst
            rcases hst with hst | hst <;> exact absurd hst (by simp)

theorem itemsOfList_filter_ne (its : List LPOItem) (lpoId j : Nat) (h : j ≠ lpoId) :
    itemsOfList (its.filter (fun i => i.lpoId != lpoId)) j = itemsOfList its j := by
  unfold itemsOfList
  rw [List.filter_filter]
  refine List.filter_congr (fun a _ => ?_)
  cases hx : (a.lpoId == j) with
  | false => simp [hx]
  | true =>
    have haj : a.lpoId = j := by simpa using hx
    have hne : (a.lpoId != lpoId) = true := by
      simp only [bne_iff_ne]
      rw [haj]
      exact h
    simp [hx, hne]

/-- The grouping of line items by order is unchanged when the editable
order `lpoId` has its items replaced, for every other order `j`. -/
theorem pres_update {db db' : DB} {lpoId : Nat} {req : LPOUpdateReq} (hI : Inv db)
    (h : updateLPO db lpoId req = .ok db') : Inv db' := by
  unfold updateLPO at h
  cases hf : findLPO db lpoId with
  | none =>
    cases hri : req.items with
    | none =>
      simp only [hri, hf] at h
      exact absurd h (by simp)
    | some its =>
      simp only [hri, hf] at h
      cases hv : validateItems its <;> simp only [hv] at h <;> exact absurd h (by simp)
  | some lpo =>
    obtain ⟨hmem, hid⟩ := findL_mem hf
    by_cases hed : lpo.is_editable = true
    · cases hri : req.items with
      | none =>
        simp only [hri, hf, hed, if_true, if_pos] at h
        obtain rfl : db' = _ := (Except.ok.inj h).symm
        have hedstatus : lpo.status ≠ Status.approved ∧ lpo.status ≠ Status.partiallyReceived := by
          unfold LPO.is_editable at hed
          rcases Bool.or_eq_true_iff.mp hed with hx | hx <;>
            (rw [beq_iff_eq] at hx; rw [hx]; exact ⟨by simp, by simp⟩)
        constructor
        · exact hI.received_le
        · exact hI.items_fresh
        · exact hI.grn_fresh
        · exact hI.items_nodup
        · intro y hy
          rcases setL_mem hy with rfl | ⟨hmem', _⟩
          · exact hI.lpos_fresh lpo hmem
          · exact hI.lpos_fresh y hmem'
        · exact hI.item_lpo_fresh
        · exact hI.line_totals
        · exact hI.qty_pos
        · intro y hy
          rcases setL_mem hy with rfl | ⟨hmem', _⟩
          · exact ⟨rfl, rfl⟩
          · exact hI.totals_ok y hmem'
        · intro y hy hst
          rcases setL_mem hy with rfl | ⟨hmem', _⟩
          · rcases hst with hst | hst
            · exact absurd hst hedstatus.1
            · exact absurd hst hedstatus.2
          · exact hI.status_items y hmem' hst
      | some its =>
        simp only [hri, hf, hed, if_true, if_pos] at h
        cases hv : validateItems its with
        | error e =>
          simp only [hv] at h
          exact absurd h (by simp)
        | ok u =>
          cases u
          simp only [hv] at h
          by_cases hprot :
              (db.grnItems.any (fun g => (itemsOf db lpoId).any (fun i => i.id == g.lpo_item)))
                = true
          · rw [if_pos hprot] at h
            exact absurd h (by simp)
          · rw [if_neg hprot] at h
            obtain rfl : db' = _ := (Except.ok.inj h).symm
            obtain ⟨hvne, hvq⟩ := validateItems_ok hv
            set N : Nat := db.nextItemId with hN
            set kept : List LPOItem := db.lpoItems.filter (fun i => i.lpoId != lpoId) with hkept
            set newItems : List LPOItem := mkItems lpoId N its with hnew
            obtain ⟨hmk, hmknd⟩ := mkItems_spec lpoId its N
            have hkeptmem : ∀ x ∈ kept, x ∈ db.lpoItems := fun x hx =>
              List.mem_of_mem_filter hx
            have hnewRecv : ∀ it ∈ newItems, totalReceived db.grnItems it.id = Dec.zero := by
              intro it hit
              refine totalReceived_eq_zero_of_fresh _ _ (fun g hg => ?_)
              have h1 := hI.grn_fresh g hg
              have h2 := (hmk it hit).2.1
              omega
            have hnewQty : ∀ it ∈ newItems, 0 < it.qty.toRat := by
              intro it hit
              obtain ⟨r, hr, hq⟩ := (hmk it hit).2.2.2.2
              rw [hq]
              exact qty_pos_of_ble_false (hvq r hr)
            have hedstatus : lpo.status ≠ Status.approved ∧
                lpo.status ≠ Status.partiallyReceived := by
              unfold LPO.is_editable at hed
              rcases Bool.or_eq_true_iff.mp hed with hx | hx <;>
                (rw [beq_iff_eq] at hx; rw [hx]; exact ⟨by simp, by simp⟩)
            have hitemsOther : ∀ j, j ≠ lpoId →
                itemsOfList (kept ++ newItems) j = itemsOfList db.lpoItems j := by
              intro j hj
              rw [itemsOfList_append, itemsOfList_eq_nil_of newItems j
                (fun x hx => by rw [(hmk x hx).1]; exact fun hc => hj hc.symm),
                List.append_nil, hkept, itemsOfList_filter_ne _ _ _ hj]
            constructor
            · intro it hit
              show (totalReceived db.grnItems it.id).toRat ≤ it.qty.toRat
              rcases List.mem_append.mp hit with hold | hnewm
              · exact hI.received_le it (hkeptmem it hold)
              · rw [hnewRecv it hnewm, Dec.zero_toRat]
                exact le_of_lt (hnewQty it hnewm)
            · intro it hit
              show it.id < N + its.length
              rcases List.mem_append.mp hit with hold | hnewm
              · have := hI.items_fresh it (hkeptmem it hold)
                omega
              · exact (hmk it hnewm).2.2.1
            · intro g hg
              show g.lpo_item < N + its.length
              have := hI.grn_fresh g hg
              omega
            · show ((kept ++ newItems).map LPOItem.id).Nodup
              rw [List.map_append, List.nodup_append]
              refine ⟨?_, hmknd, ?_⟩
              · exact hI.items_nodup.sublist ((List.filter_sublist _).map LPOItem.id)
              · intro a ha hb
                obtain ⟨x, hx, hxa⟩ := List.mem_map.mp ha
                obtain ⟨y, hy, hya⟩ := List.mem_map.mp hb
                have h1 := hI.items_fresh x (hkeptmem x hx)
                have h2 := (hmk y hy).2.1
                omega
            · intro y hy
              rcases setL_mem hy with rfl | ⟨hmem', _⟩
              · exact hI.lpos_fresh lpo hmem
              · exact hI.lpos_fresh y hmem'
            · intro it hit
              show it.lpoId < db.nextLpoId
              rcases List.mem_append.mp hit with hold | hnewm
              · exact hI.item_lpo_fresh it (hkeptmem it hold)
              · rw [(hmk it hnewm).1, ← hid]
                exact hI.lpos_fresh lpo hmem
            · intro it hit
              rcases List.mem_append.mp hit with hold | hnewm
              · exact hI.line_totals it (hkeptmem it hold)
              · exact (hmk it hnewm).2.2.2.1
            · intro it hit
              rcases List.mem_append.mp hit with hold | hnewm
              · exact hI.qty_pos it (hkeptmem it hold)
              · exact hnewQty it hnewm
            · intro y hy
              rcases setL_mem hy with rfl | ⟨hmem', hne'⟩
              · exact ⟨rfl, rfl⟩
              · obtain ⟨hg, hs⟩ := hI.totals_ok y hmem'
                refine ⟨hg, ?_⟩
                have hyne : y.id ≠ lpoId := fun hc => hne' (by rw [hc]; exact hid.symm)
                show y.subtotal = Dec.sumD ((itemsOfList (kept ++ newItems) y.id).map
                  (fun i => i.line_total)) Dec.zero2
                rw [hitemsOther y.id hyne]
                exact hs
            · intro y hy hst
              rcases setL_mem hy with rfl | ⟨hmem', hne'⟩
              · rcases hst with hst | hst
                · exact absurd hst hedstatus.1
                · exact absurd hst hedstatus.2
              · have hyne : y.id ≠ lpoId := fun hc => hne' (by rw [hc]; exact hid.symm)
                show itemsOfList (kept ++ newItems) y.id ≠ []
                rw [hitemsOther y.id hyne]
                exact hI.status_items y hmem' hst
    · cases hri : req.items with
      | none =>
        simp only [hri, hf] at h
        rw [if_neg hed] at h
        exact absurd h (by simp)
      | some its =>
        simp only [hri, hf] at h
        cases hv : validateItems its with
        | error e =>
          simp only [hv] at h
          exact absurd h (by simp)
        | ok u =>
          cases u
          simp only [hv] at h
          rw [if_neg hed] at h
          exact absurd h (by simp)

theorem pres_submit {db db' : DB} {lpoId : Nat} (hI : Inv db)
    (h : submitLPO db lpoId = .ok db') : Inv db' := by
  unfold submitLPO at h
  cases hf : findLPO db lpoId with
  | none =>
    rw [hf] at h
    exact absurd h (by simp)
  | some lpo =>
    obtain ⟨hmem, hid⟩ := findL_mem hf
    simp only [hf] at h
    by_cases hst : lpo.status ≠ Status.draft
    · rw [if_pos hst] at h
      exact absurd h (by simp)
    · rw [if_neg hst] at h
      by_cases hz : ((itemsOf db lpoId).length == 0 || Dec.ble lpo.grand_total Dec.zero) = true
      · rw [if_pos hz] at h
        exact absurd h (by simp)
      · rw [if_neg hz] at h
        obtain rfl : db' = _ := (Except.ok.inj h).symm
        exact @Inv.replaceSameTotals db hI lpo { lpo with status := Status.submitted } hmem
          rfl rfl rfl rfl rfl _
          (fun hc => by rcases hc with hc | hc <;> exact absurd hc (by simp))

theorem pres_approve {db db' : DB} {lpoId : Nat} (hI : Inv db)
    (h : approveLPO db lpoId = .ok db') : Inv db' := by
  unfold approveLPO at h
  cases hf : findLPO db lpoId with
  | none =>
    rw [hf] at h
    exact absurd h (by simp)
  | some lpo =>
    obtain ⟨hmem, hid⟩ := findL_mem hf
    simp only [hf] at h
    by_cases hst : lpo.status ≠ Status.submitted
    · rw [if_pos hst] at h
      exact absurd h (by simp)
    · rw [if_neg hst] at h
      by_cases hz : ((itemsOf db lpoId).length == 0 || Dec.ble lpo.grand_total Dec.zero) = true
      · rw [if_pos hz] at h
        exact absurd h (by simp)
      · rw [if_neg hz] at h
        obtain rfl : db' = _ := (Except.ok.inj h).symm
        refine @Inv.replaceSameTotals db hI lpo { lpo with status := Status.approved } hmem
          rfl rfl rfl rfl rfl _ (fun _ => ?_)
        have hlen : (itemsOf db lpoId).length ≠ 0 := by
          intro hc
          exact hz (by simp [hc])
        show itemsOfList db.lpoItems lpo.id ≠ []
        rw [hid]
        intro hc
        exact hlen (by rw [itemsOf, hc]; rfl)

theorem pres_cancel {db db' : DB} {lpoId : Nat} (hI : Inv db)
    (h : cancelLPO db lpoId = .ok db') : Inv db' := by
  unfold cancelLPO at h
  cases hf : findLPO db lpoId with
  | none =>
    rw [hf] at h
    exact absurd h (by simp)
  | some lpo =>
    obtain ⟨hmem, hid⟩ := findL_mem hf
    simp only [hf] at h
    by_cases hst : lpo.status = Status.fulfilled ∨ lpo.status = Status.cancelled
    · rw [if_pos hst] at h
      exact absurd h (by simp)
    · rw [if_neg hst] at h
      obtain rfl : db' = _ := (Except.ok.inj h).symm
      exact @Inv.replaceSameTotals db hI lpo { lpo with status := Status.cancelled } hmem
        rfl rfl rfl rfl rfl _
        (fun hc => by rcases hc with hc | hc <;> exact absurd hc (by simp))

theorem refresh_preserves (db : DB) (l : LPO) :
    (refresh_receive_status db l).id = l.id ∧
    (refresh_receive_status db l).subtotal = l.subtotal ∧
    (refresh_receive_status db l).tax_amount = l.tax_amount ∧
    (refresh_receive_status db l).discount_amount = l.discount_amount ∧
    (refresh_receive_status db l).grand_total = l.grand_total := by
  unfold refresh_receive_status
  simp only []
  split
  · exact ⟨rfl, rfl, rfl, rfl, rfl⟩
  · split
    · exact ⟨rfl, rfl, rfl, rfl, rfl⟩
    · exact ⟨rfl, rfl, rfl, rfl, rfl⟩

theorem pres_receive {db db' : DB} {lpoId : Nat} {items : List GRNItemReq} (hI : Inv db)
    (h : receive db lpoId items = .ok db') : Inv db' := by
  unfold receive at h
  by_cases h1 : (items.any (fun it => (findLPOItem db it.lpo_item).isNone)) = true
  · rw [if_pos h1] at h
    exact absurd h (by simp)
  · rw [if_neg h1] at h
    by_cases h2 : (items.any (fun it => Dec.ble it.qty_received Dec.zero)) = true
    · rw [if_pos h2] at h
      exact absurd h (by simp)
    · rw [if_neg h2] at h
      cases hf : findLPO db lpoId with
      | none =>
        rw [hf] at h
        exact absurd h (by simp)
      | some lpo =>
        obtain ⟨hmem, hid⟩ := findL_mem hf
        simp only [hf] at h
        by_cases hst : lpo.status = Status.approved ∨ lpo.status = Status.partiallyReceived
        · rw [if_pos hst] at h
          by_cases hne : items.isEmpty = true
          · rw [if_pos hne] at h
            exact absurd h (by simp)
          · rw [if_neg hne] at h
            set db1 : DB := { db with grns := db.grns ++ [⟨db.nextGrnId, lpoId⟩],
                                      nextGrnId := db.nextGrnId + 1 } with hdb1
            cases hloop : receiveLoop db1 db.nextGrnId items with
            | error e =>
              simp only [hloop] at h
              exact absurd h (by simp)
            | ok db2 =>
              simp only [hloop] at h
              obtain ⟨s1, s2, s3, s4, s5, s6, sInv⟩ := receiveLoop_ok _ _ _ _ hloop
              have e2 : db2.lpos = db.lpos := s2
              have e3 : db2.lpoItems = db.lpoItems := s3
              have e4 : db2.nextItemId = db.nextItemId := s4
              have e5 : db2.nextLpoId = db.nextLpoId := s5
              obtain ⟨hgf2, hrle2⟩ := sInv
                (by show ∀ g ∈ db.grnItems, g.lpo_item < db.nextItemId; exact hI.grn_fresh)
                (by show (db.lpoItems.map LPOItem.id).Nodup; exact hI.items_nodup)
                (by show ∀ x ∈ db.lpoItems, x.id < db.nextItemId; exact hI.items_fresh)
                (by show ∀ x ∈ db.lpoItems,
                      (totalReceived db.grnItems x.id).toRat ≤ x.qty.toRat
                    exact hI.received_le)
              cases hf2 : findLPO db2 lpoId with
              | none =>
                simp only [hf2] at h
                exact absurd h (by simp)
              | some lpo2 =>
                simp only [hf2] at h
                obtain rfl : db' = _ := (Except.ok.inj h).symm
                obtain ⟨hmem2, hid2⟩ := findL_mem hf2
                have hmem2' : lpo2 ∈ db.lpos := by rwa [e2] at hmem2
                have hI2 : Inv db2 := by
                  constructor
                  · exact hrle2
                  · rw [e3, e4]
                    exact hI.items_fresh
                  · exact hgf2
                  · rw [e3]
                    exact hI.items_nodup
                  · rw [e2, e5]
                    exact hI.lpos_fresh
                  · rw [e3, e5]
                    exact hI.item_lpo_fresh
                  · rw [e3]
                    exact hI.line_totals
                  · rw [e3]
                    exact hI.qty_pos
                  · rw [e2, e3]
                    exact hI.totals_ok
                  · rw [e2, e3]
                    exact hI.status_items
                have hrf := refresh_preserves db2 lpo2
                refine hI2.replaceSameTotals hmem2 hrf.1 hrf.2.1 hrf.2.2.1 hrf.2.2.2.1
                  hrf.2.2.2.2 _ (fun _ => ?_)
                rw [hrf.1, hid2, e3, ← hid]
                have hst' : lpo.status = Status.approved ∨
                    lpo.status = Status.partiallyReceived := hst
                have := hI.status_items lpo hmem hst'
                exact this
        · rw [if_neg hst] at h
          exact absurd h (by simp)

theorem step_preserves {db db' : DB} (hI : Inv db) (hs : Step db db') : Inv db' :=
  match hs with
  | .supplier _ _ _ _ h => pres_supplier hI h
  | .create _ _ _ _ h => pres_create hI h
  | .update _ _ _ _ h => pres_update hI h
  | .submit _ _ _ h => pres_submit hI h
  | .approve _ _ _ h => pres_approve hI h
  | .cancel _ _ _ h => pres_cancel hI h
  | .received _ _ _ _ h => pres_receive hI h

theorem inv_init : Inv initDB := by
  constructor <;> simp [initDB, itemsOfList]

theorem reachable_inv {db : DB} (h : Reachable db) : Inv db := by
  induction h with
  | init => exact inv_init
  | step _ hs ih => exact step_preserves ih hs

-- ===== reachability of the concrete scenario states =====

theorem reach_dbS : Reachable dbS :=
  .step .init (.supplier initDB 2025 reqS dbS (by decide))

theorem reach_dbC : Reachable dbC :=
  .step reach_dbS (.create dbS 2025 reqC dbC (by decide))

theorem reach_dbSub : Reachable dbSub :=
  .step reach_dbC (.submit dbC 0 dbSub (by decide))

theorem reach_dbA : Reachable dbA :=
  .step reach_dbSub (.approve dbSub 0 dbA (by decide))

theorem reach_dbP : Reachable dbP :=
  .step reach_dbA (.received dbA 0 [⟨0, ⟨400, 2⟩⟩] dbP (by decide))

theorem reach_dbF : Reachable dbF :=
  .step reach_dbP (.received dbP 0 [⟨0, ⟨600, 2⟩⟩] dbF (by decide))

theorem reach_dbQ : Reachable dbQ :=
  .step reach_dbA (.received dbA 0 [⟨0, ⟨500, 2⟩⟩] dbQ (by decide))

theorem reach_dbQ1 : Reachable dbQ1 :=
  .step reach_dbQ (.received dbQ 0 [⟨0, ⟨300, 2⟩⟩] dbQ1 (by decide))

theorem reach_dbZ : Reachable dbZ :=
  .step reach_dbS (.create dbS 2025 reqZ dbZ (by decide))

-- ===== the claims =====

/-- C2: for every order line item, at all times — that is, in every state
reachable from the empty store by supplier/order creation, item
replacement, status transitions and goods receipts — the sum of all
receipt-item quantities recorded against that line item is at most the
line item's ordered quantity. -/
theorem C2_total_received_le_qty {db : DB} (h : Reachable db) :
    ∀ it ∈ db.lpoItems, Dec.ble (totalReceived db.grnItems it.id) it.qty = true := by
  intro it hit
  exact (Dec.ble_iff _ _).mpr ((reachable_inv h).received_le it hit)

/-- Witness for C2 at a reachable state with receipts on record. -/
theorem C2_total_received_le_qty_witness :
    Reachable dbP ∧
    ∀ it ∈ dbP.lpoItems, Dec.ble (totalReceived dbP.grnItems it.id) it.qty = true :=
  ⟨reach_dbP, C2_total_received_le_qty reach_dbP⟩

/-- C3: for every order, in every reachable state (in particular after any
create or update completes), `grand_total` equals
`subtotal + tax_amount - discount_amount` as exact decimal equality, and
`subtotal` equals the sum of `qty * unit_price` over the order's current
line items. -/
theorem C3_totals_invariant {db : DB} (h : Reachable db) :
    ∀ l ∈ db.lpos,
      Dec.beq l.grand_total (Dec.sub (Dec.add l.subtotal l.tax_amount) l.discount_amount)
        = true ∧
      Dec.beq l.subtotal
        (Dec.sumD ((itemsOf db l.id).map (fun i => Dec.mul i.qty i.unit_price)) Dec.zero2)
        = true := by
  intro l hl
  obtain ⟨hg, hs⟩ := (reachable_inv h).totals_ok l hl
  constructor
  · rw [hg]
    exact (Dec.beq_iff _ _).mpr rfl
  · rw [hs]
    have hmap : (itemsOfList db.lpoItems l.id).map (fun i => i.line_total)
        = (itemsOf db l.id).map (fun i => Dec.mul i.qty i.unit_price) := by
      refine List.map_congr_left (fun x hx => ?_)
      exact (reachable_inv h).line_totals x (List.mem_of_mem_filter hx)
    rw [hmap]
    exact (Dec.beq_iff _ _).mpr rfl

/-- Witness for C3 at a reachable state with a created order. -/
theorem C3_totals_invariant_witness :
    Reachable dbC ∧
    ∀ l ∈ dbC.lpos,
      Dec.beq l.grand_total (Dec.sub (Dec.add l.subtotal l.tax_amount) l.discount_amount)
        = true ∧
      Dec.beq l.subtotal
        (Dec.sumD ((itemsOf dbC l.id).map (fun i => Dec.mul i.qty i.unit_price)) Dec.zero2)
        = true :=
  ⟨reach_dbC, C3_totals_invariant reach_dbC⟩

/-- C7: submitting a draft order that has zero line items or
`grand_total ≤ 0` fails with the validation error, and the failed submit
changes nothing (the error is raised before any assignment). -/
theorem C7_submit_guard (db : DB) (lpoId : Nat) (lpo : LPO)
    (hf : findLPO db lpoId = some lpo) (hd : lpo.status = Status.draft)
    (hz : (itemsOf db lpoId).length = 0 ∨ Dec.ble lpo.grand_total Dec.zero = true) :
    submitLPO db lpoId = .error Err.emptyOrZeroTotal ∧ applySubmit db lpoId = db := by
  have hzb : ((itemsOf db lpoId).length == 0 || Dec.ble lpo.grand_total Dec.zero) = true := by
    rcases hz with hz | hz
    · simp [hz]
    · simp [hz]
  have hrec : submitLPO db lpoId = .error Err.emptyOrZeroTotal := by
    unfold submitLPO
    simp only [hf]
    rw [if_neg (fun hne => hne hd), if_pos hzb]
  refine ⟨hrec, ?_⟩
  unfold applySubmit
  rw [hrec]

/-- Witness for C7: a draft order whose single line is free of charge has
`grand_total = 0`, and submitting it fails, changing nothing. -/
theorem C7_submit_guard_witness :
    submitLPO dbZ 0 = .error Err.emptyOrZeroTotal ∧ applySubmit dbZ 0 = dbZ := by
  have hf : findLPO dbZ 0 = some ⟨0, 0, "LPO-2025-000002", Status.draft, ⟨0, 4⟩,
      Dec.zero2, Dec.zero2, ⟨0, 4⟩⟩ := by decide
  exact C7_submit_guard dbZ 0 _ hf (by decide) (Or.inr (by decide))

/-- C6 as frozen is wrong about the error: on a fulfilled order, a further
receipt of qty 1 against the fully received line item is rejected by the
status guard of `GoodsReceiptSerializer.validate` ("Only approved or
partially received LPO can receive goods."), not by the
"Qty exceeds remaining" check (which would report remaining 0 here).
Quantities are indeed left unchanged. -/
theorem C6_counterexample :
    receive dbF 0 [⟨0, ⟨100, 2⟩⟩] = .error Err.onlyApprovedOrPartialCanReceive ∧
    (Except.error Err.onlyApprovedOrPartialCanReceive ≠
      (Except.error (Err.qtyExceedsRemaining ⟨0, 2⟩) : Except Err DB)) ∧
    applyReceive dbF 0 [⟨0, ⟨100, 2⟩⟩] = dbF := by
  refine ⟨by decide, by decide, by decide⟩

/-- C6 (amended): on a fulfilled order, any further receipt attempt with
existing line items and positive quantities fails with the status-guard
validation error, and all recorded quantities stay unchanged. -/
theorem C6_fulfilled_rereceive_rejected (db : DB) (lpoId : Nat) (items : List GRNItemReq)
    (lpo : LPO) (hf : findLPO db lpoId = some lpo) (hs : lpo.status = Status.fulfilled)
    (hex : ∀ it ∈ items, (findLPOItem db it.lpo_item).isSome = true)
    (hq : ∀ it ∈ items, Dec.blt Dec.zero it.qty_received = true) :
    receive db lpoId items = .error Err.onlyApprovedOrPartialCanReceive ∧
    applyReceive db lpoId items = db := by
  have h1 : (items.any fun it => (findLPOItem db it.lpo_item).isNone) = false := by
    rw [List.any_eq_false]
    intro x hx
    have hxs := hex x hx
    simp only [Bool.not_eq_true]
    cases hfind : findLPOItem db x.lpo_item with
    | none =>
      rw [hfind] at hxs
      simp at hxs
    | some y => simp
  have h2 : (items.any fun it => Dec.ble it.qty_received Dec.zero) = false := by
    rw [List.any_eq_false]
    intro x hx
    have hpos : 0 < x.qty_received.toRat := by
      have h' := (Dec.blt_iff _ _).mp (hq x hx)
      rwa [Dec.zero_toRat] at h'
    intro hble
    have hle := (Dec.ble_iff _ _).mp hble
    rw [Dec.zero_toRat] at hle
    linarith
  have hcond : ¬(lpo.status = Status.approved ∨ lpo.status = Status.partiallyReceived) := by
    intro hc
    rcases hc with hc | hc <;> (rw [hs] at hc; exact absurd hc (by simp))
  have hrec : receive db lpoId items = .error Err.onlyApprovedOrPartialCanReceive := by
    unfold receive
    simp only [hf]
    rw [h1, if_neg (by simp), h2, if_neg (by simp), if_neg hcond]
  refine ⟨hrec, ?_⟩
  unfold applyReceive
  rw [hrec]

/-- Witness for the amended C6 at the concrete fulfilled order. -/
theorem C6_fulfilled_rereceive_rejected_witness :
    receive dbF 0 [⟨0, ⟨100, 2⟩⟩] = .error Err.onlyApprovedOrPartialCanReceive ∧
    applyReceive dbF 0 [⟨0, ⟨100, 2⟩⟩] = dbF := by
  have hf : findLPO dbF 0 = some ⟨0, 0, "LPO-2025-000002", Status.fulfilled, ⟨150000, 4⟩,
      ⟨0, 2⟩, ⟨0, 2⟩, ⟨150000, 4⟩⟩ := by decide
  exact C6_fulfilled_rereceive_rejected dbF 0 _ _ hf (by decide) (by decide) (by decide)

/-- C1: a receipt request in which some item's quantity exceeds that line
item's remaining quantity (ordered minus already received) makes the whole
receipt abort with the "Qty exceeds remaining" validation error carrying a
remaining amount, and — the operation being one atomic transaction —
nothing is persisted: the store is unchanged (no receipt item, no stock
increase, no status change, no audit entry). -/
theorem C1_over_receipt_aborts (db : DB) (lpoId : Nat) (items : List GRNItemReq) (lpo : LPO)
    (hf : findLPO db lpoId = some lpo)
    (hst : lpo.status = Status.approved ∨ lpo.status = Status.partiallyReceived)
    (hex : ∀ it ∈ items, (findLPOItem db it.lpo_item).isSome = true)
    (hq : ∀ it ∈ items, Dec.blt Dec.zero it.qty_received = true)
    (hover : ∃ it ∈ items, ∃ li, findLPOItem db it.lpo_item = some li ∧
        Dec.blt (Dec.sub li.qty (totalReceived db.grnItems li.id)) it.qty_received = true) :
    (∃ r, receive db lpoId items = .error (Err.qtyExceedsRemaining r)) ∧
    applyReceive db lpoId items = db := by
  have h1 : (items.any fun it => (findLPOItem db it.lpo_item).isNone) = false := by
    rw [List.any_eq_false]
    intro x hx
    have hxs := hex x hx
    simp only [Bool.not_eq_true]
    cases hfind : findLPOItem db x.lpo_item with
    | none =>
      rw [hfind] at hxs
      simp at hxs
    | some y => simp
  have h2 : (items.any fun it => Dec.ble it.qty_received Dec.zero) = false := by
    rw [List.any_eq_false]
    intro x hx
    have hpos : 0 < x.qty_received.toRat := by
      have h' := (Dec.blt_iff _ _).mp (hq x hx)
      rwa [Dec.zero_toRat] at h'
    intro hble
    have hle := (Dec.ble_iff _ _).mp hble
    rw [Dec.zero_toRat] at hle
    linarith
  have hne : items.isEmpty = false := by
    obtain ⟨w, hw, _⟩ := hover
    cases items with
    | nil => exact absurd hw (by simp)
    | cons a as => rfl
  set db1 : DB := { db with grns := db.grns ++ [⟨db.nextGrnId, lpoId⟩],
                            nextGrnId := db.nextGrnId + 1 } with hdb1
  have hex1 : ∀ it ∈ items, (findLPOItem db1 it.lpo_item).isSome = true := hex
  have hq' : ∀ it ∈ items, 0 < it.qty_received.toRat := fun it hit => by
    have h' := (Dec.blt_iff _ _).mp (hq it hit)
    rwa [Dec.zero_toRat] at h'
  have hover' : ∃ it ∈ items, ∃ li, findLPOItem db1 it.lpo_item = some li ∧
      (Dec.sub li.qty (totalReceived db1.grnItems li.id)).toRat < it.qty_received.toRat := by
    obtain ⟨w, hw, li, hli, hb⟩ := hover
    exact ⟨w, hw, li, hli, (Dec.blt_iff _ _).mp hb⟩
  obtain ⟨r, hr⟩ := receiveLoop_over db.nextGrnId items db1 hex1 hq' hover'
  have hrec : receive db lpoId items = .error (Err.qtyExceedsRemaining r) := by
    unfold receive
    simp only [hf]
    rw [h1, if_neg (by simp), h2, if_neg (by simp), if_pos hst, hne, if_neg (by simp),
        ← hdb1, hr]
  refine ⟨⟨r, hrec⟩, ?_⟩
  unfold applyReceive
  rw [hrec]

/-- Witness for C1: requesting 40.00 against the approved line of 10.00
aborts with remaining 10.00 reported, and the store is unchanged. -/
theorem C1_over_receipt_aborts_witness :
    (∃ r, receive dbA 0 [⟨0, ⟨4000, 2⟩⟩] = .error (Err.qtyExceedsRemaining r)) ∧
    applyReceive dbA 0 [⟨0, ⟨4000, 2⟩⟩] = dbA := by
  have hf : findLPO dbA 0 = some ⟨0, 0, "LPO-2025-000002", Status.approved, ⟨150000, 4⟩,
      ⟨0, 2⟩, ⟨0, 2⟩, ⟨150000, 4⟩⟩ := by decide
  refine C1_over_receipt_aborts dbA 0 _ _ hf (Or.inl (by decide)) (by decide) (by decide) ?_
  refine ⟨⟨0, ⟨4000, 2⟩⟩, by decide, ⟨0, 0, none, "Bolt", ⟨1000, 2⟩, ⟨150, 2⟩,
    ⟨150000, 4⟩⟩, by decide, by decide⟩

theorem refresh_status_spec (db : DB) (l : LPO) :
    (Dec.beq (totalReceivedOf db l.id) Dec.zero = false →
      Dec.ble (totalOrderedOf db l.id) (totalReceivedOf db l.id) = true →
      (refresh_receive_status db l).status = Status.fulfilled) ∧
    (Dec.beq (totalReceivedOf db l.id) Dec.zero = false →
      Dec.ble (totalOrderedOf db l.id) (totalReceivedOf db l.id) = false →
      (refresh_receive_status db l).status = Status.partiallyReceived) := by
  unfold refresh_receive_status totalReceivedOf totalOrderedOf
  constructor
  · intro h1 h2
    simp only []
    rw [h1, if_neg (by simp), h2, if_pos rfl]
  · intro h1 h2
    simp only []
    rw [h1, if_neg (by simp), h2, if_neg (by simp)]

/-- C4: after every successful receipt against an order, the new status is
determined by the totals over all the order's line items: received ≥
ordered gives `fulfilled`, and otherwise received > 0 gives
`partially_received`.  In particular, on the approved order with one line
item of qty 10, receiving 4 yields `partially_received` with remaining 6,
and then receiving 6 yields `fulfilled` with remaining 0. -/
theorem C4_receive_status :
    (∀ (db : DB), Reachable db → ∀ (lpoId : Nat) (items : List GRNItemReq) (db' : DB),
      receive db lpoId items = .ok db' → ∀ l', findLPO db' lpoId = some l' →
      (Dec.ble (totalOrderedOf db' lpoId) (totalReceivedOf db' lpoId) = true →
        l'.status = Status.fulfilled) ∧
      (Dec.ble (totalOrderedOf db' lpoId) (totalReceivedOf db' lpoId) = false →
        Dec.blt Dec.zero (totalReceivedOf db' lpoId) = true →
        l'.status = Status.partiallyReceived)) ∧
    ((findLPO dbA 0).map LPO.status = some Status.approved ∧
     receive dbA 0 [⟨0, ⟨400, 2⟩⟩] = .ok dbP ∧
     (findLPO dbP 0).map LPO.status = some Status.partiallyReceived ∧
     Dec.beq (Dec.sub ⟨1000, 2⟩ (totalReceived dbP.grnItems 0)) ⟨6, 0⟩ = true ∧
     receive dbP 0 [⟨0, ⟨600, 2⟩⟩] = .ok dbF ∧
     (findLPO dbF 0).map LPO.status = some Status.fulfilled ∧
     Dec.beq (Dec.sub ⟨1000, 2⟩ (totalReceived dbF.grnItems 0)) ⟨0, 2⟩ = true) := by
  constructor
  · intro db hreach lpoId items db' h l' hl'
    unfold receive at h
    by_cases h1 : (items.any (fun it => (findLPOItem db it.lpo_item).isNone)) = true
    · rw [if_pos h1] at h
      exact absurd h (by simp)
    · rw [if_neg h1] at h
      by_cases h2 : (items.any (fun it => Dec.ble it.qty_received Dec.zero)) = true
      · rw [if_pos h2] at h
        exact absurd h (by simp)
      · rw [if_neg h2] at h
        cases hf : findLPO db lpoId with
        | none =>
          rw [hf] at h
          exact absurd h (by simp)
        | some lpo =>
          obtain ⟨hmem, hid⟩ := findL_mem hf
          simp only [hf] at h
          by_cases hst : lpo.status = Status.approved ∨ lpo.status = Status.partiallyReceived
          · rw [if_pos hst] at h
            by_cases hne : items.isEmpty = true
            · rw [if_pos hne] at h
              exact absurd h (by simp)
            · rw [if_neg hne] at h
              set db1 : DB := { db with grns := db.grns ++ [⟨db.nextGrnId, lpoId⟩],
                                        nextGrnId := db.nextGrnId + 1 } with hdb1
              cases hloop : receiveLoop db1 db.nextGrnId items with
              | error e =>
                simp only [hloop] at h
                exact absurd h (by simp)
              | ok db2 =>
                simp only [hloop] at h
                obtain ⟨s1, s2, s3, s4, s5, s6, sInv⟩ := receiveLoop_ok _ _ _ _ hloop
                cases hf2 : findLPO db2 lpoId with
                | none =>
                  simp only [hf2] at h
                  exact absurd h (by simp)
                | some lpo2 =>
                  simp only [hf2] at h
                  obtain rfl : db' = _ := (Except.ok.inj h).symm
                  obtain ⟨hmem2, hid2⟩ := findL_mem hf2
                  have hRid : (refresh_receive_status db2 lpo2).id = lpoId := by
                    rw [(refresh_preserves db2 lpo2).1, hid2]
                  have hfind' : findL (setL db2.lpos (refresh_receive_status db2 lpo2)) lpoId
                      = some (refresh_receive_status db2 lpo2) := by
                    rw [← hRid]
                    exact findL_setL (by rw [hRid]; exact hf2)
                  have hl'eq : l' = refresh_receive_status db2 lpo2 := by
                    have hl'2 : findL (setL db2.lpos (refresh_receive_status db2 lpo2)) lpoId
                        = some l' := hl'
                    rw [hfind'] at hl'2
                    exact (Option.some.inj hl'2).symm
                  have hspec := refresh_status_spec db2 lpo2
                  rw [hid2] at hspec
                  have e3' : db2.lpoItems = db.lpoItems := s3
                  constructor
                  · intro hble
                    have hble2 : Dec.ble (totalOrderedOf db2 lpoId) (totalReceivedOf db2 lpoId)
                        = true := hble
                    by_cases hz : Dec.beq (totalReceivedOf db2 lpoId) Dec.zero = true
                    · exfalso
                      have hInv := reachable_inv hreach
                      have hnemp := hInv.status_items lpo hmem hst
                      rw [hid] at hnemp
                      have hitems : itemsOf db2 lpoId = itemsOf db lpoId := by
                        show itemsOfList db2.lpoItems lpoId = itemsOfList db.lpoItems lpoId
                        rw [e3']
                      have hpos : 0 < (totalOrderedOf db2 lpoId).toRat := by
                        unfold totalOrderedOf
                        rw [hitems, Dec.sumD_toRat, Dec.zero_toRat, zero_add]
                        apply List.sum_pos
                        · intro x hx
                          rw [List.map_map] at hx
                          obtain ⟨i, hi, rfl⟩ := List.mem_map.mp hx
                          exact hInv.qty_pos i (List.mem_of_mem_filter hi)
                        · intro hnil
                          apply hnemp
                          rw [List.map_map] at hnil
                          exact List.map_eq_nil_iff.mp hnil
                      have hb := (Dec.ble_iff _ _).mp hble2
                      have hz' := (Dec.beq_iff _ _).mp hz
                      rw [Dec.zero_toRat] at hz'
                      rw [hz'] at hb
                      linarith
                    · have hzf : Dec.beq (totalReceivedOf db2 lpoId) Dec.zero = false := by
                        simpa using hz
                      rw [hl'eq]
                      exact hspec.1 hzf hble2
                  · intro hble hposr
                    have hble2 : Dec.ble (totalOrderedOf db2 lpoId) (totalReceivedOf db2 lpoId)
                        = false := hble
                    have hposr2 : Dec.blt Dec.zero (totalReceivedOf db2 lpoId) = true := hposr
                    have hzf : Dec.beq (totalReceivedOf db2 lpoId) Dec.zero = false := by
                      rw [Dec.beq_eq_false_iff, Dec.zero_toRat]
                      have hx := (Dec.blt_iff _ _).mp hposr2
                      rw [Dec.zero_toRat] at hx
                      exact ne_of_gt hx
                    rw [hl'eq]
                    exact hspec.2 hzf hble2
          · rw [if_neg hst] at h
            exact absurd h (by simp)
  · exact ⟨by decide, by decide, by decide, by decide, by decide, by decide, by decide⟩

/-- Witness for the general part of C4, applied to the receipt that
completes the concrete order. -/
theorem C4_receive_status_witness :
    Reachable dbP ∧ (findLPO dbF 0).map LPO.status = some Status.fulfilled := by
  have hfind : findLPO dbF 0 = some ⟨0, 0, "LPO-2025-000002", Status.fulfilled, ⟨150000, 4⟩,
      ⟨0, 2⟩, ⟨0, 2⟩, ⟨150000, 4⟩⟩ := by decide
  have h := (C4_receive_status.1 dbP reach_dbP 0 [⟨0, ⟨600, 2⟩⟩] dbF (by decide) _ hfind).1
    (by decide)
  refine ⟨reach_dbP, ?_⟩
  calc (findLPO dbF 0).map LPO.status
      = some ((⟨0, 0, "LPO-2025-000002", Status.fulfilled, ⟨150000, 4⟩,
          ⟨0, 2⟩, ⟨0, 2⟩, ⟨150000, 4⟩⟩ : LPO).status) := by rw [hfind]; rfl
    _ = some Status.fulfilled := congrArg some h

theorem find?_seqSet (ls : List LPOSequence) (year c : Nat) :
    ((ls.map (fun s => if s.year == year then { s with counter := c } else s)).find?
      (fun s => s.year == year)) =
    ((ls.find? (fun s => s.year == year)).map (fun s => { s with counter := c })) := by
  induction ls with
  | nil => rfl
  | cons a as ih =>
    simp only [List.map_cons]
    by_cases ha : (a.year == year) = true
    · rw [if_pos ha]
      simp only [List.find?, ha, Option.map_some']
    · have ha' : (a.year == year) = false := by
        cases hx : (a.year == year)
        · rfl
        · exact absurd hx ha
      rw [if_neg ha]
      simp only [List.find?, ha']
      exact ih

/-- C5 as frozen is false on the code: order numbers and supplier codes do
NOT increment independently.  `next_supplier_code` calls the same
`_next_year_counter` over the same `LPOSequence` table as `next_lpo_number`
(services.py:44-51, whose docstring says "Shares the yearly counter with
LPOs").  Concretely: from the empty store, the first order number is
LPO-2025-000001, but after one supplier-code allocation it is
LPO-2025-000002 — the supplier allocation advanced the order sequence. -/
theorem C5_counterexample :
    (next_lpo_number initDB 2025).2 = "LPO-2025-000001" ∧
    (next_lpo_number (next_supplier_code initDB 2025).1 2025).2 = "LPO-2025-000002" ∧
    "LPO-2025-000002" ≠ "LPO-2025-000001" :=
  ⟨by decide, by decide, by decide⟩

/-- C5 (amended): order numbers and supplier codes draw from one shared
per-year counter.  Every allocation for a year returns exactly the stored
counter plus one — strictly increasing with no duplicates across both
counter uses — and on year rollover the row is created with counter 0, so
the first allocation of a year returns 1. -/
theorem C5_shared_yearly_counter (db : DB) (year : Nat) :
    (nextYearCounter db year).2.1 = year ∧
    (nextYearCounter db year).2.2 = seqCounter db year + 1 ∧
    seqCounter (nextYearCounter db year).1 year = seqCounter db year + 1 ∧
    (db.seqs.find? (fun s => s.year == year) = none →
      (getOrCreateSeq db year).2.counter = 0) ∧
    (next_lpo_number db year).2 = formatSeqNumber "LPO" year (seqCounter db year + 1) ∧
    (next_supplier_code db year).2 = formatSeqNumber "SUP" year (seqCounter db year + 1) := by
  have hmain : (nextYearCounter db year).2.1 = year ∧
      (nextYearCounter db year).2.2 = seqCounter db year + 1 ∧
      seqCounter (nextYearCounter db year).1 year = seqCounter db year + 1 ∧
      (db.seqs.find? (fun s => s.year == year) = none →
        (getOrCreateSeq db year).2.counter = 0) := by
    cases hfind : db.seqs.find? (fun s => s.year == year) with
    | none =>
      have hsc : seqCounter db year = 0 := by
        unfold seqCounter
        rw [hfind]
        rfl
      rw [hsc]
      unfold nextYearCounter getOrCreateSeq seqCounter
      rw [hfind]
      simp only []
      refine ⟨by trivial, by trivial, ?_, fun _ => by trivial⟩
      rw [find?_seqSet, List.find?_append, hfind]
      have hone : ([(⟨year, 0⟩ : LPOSequence)].find? (fun s => s.year == year))
          = some ⟨year, 0⟩ := by
        simp [List.find?]
      simp [hone]
    | some s =>
      have hsc : seqCounter db year = s.counter := by
        unfold seqCounter
        rw [hfind]
        rfl
      rw [hsc]
      unfold nextYearCounter getOrCreateSeq seqCounter
      rw [hfind]
      simp only []
      refine ⟨by trivial, by trivial, ?_, fun hc => absurd hc (by simp)⟩
      rw [find?_seqSet, hfind]
      rfl
  refine ⟨hmain.1, hmain.2.1, hmain.2.2.1, hmain.2.2.2, ?_, ?_⟩
  · show formatSeqNumber "LPO" (nextYearCounter db year).2.1 (nextYearCounter db year).2.2 = _
    rw [hmain.1, hmain.2.1]
  · show formatSeqNumber "SUP" (nextYearCounter db year).2.1 (nextYearCounter db year).2.2 = _
    rw [hmain.1, hmain.2.1]

/-- Witness for the amended C5: the very first allocation of 2025 returns
counter 1 from a row created at 0, and is shared by both number formats. -/
theorem C5_shared_yearly_counter_witness :
    (nextYearCounter initDB 2025).2.2 = seqCounter initDB 2025 + 1 ∧
    (getOrCreateSeq initDB 2025).2.counter = 0 ∧
    (next_lpo_number initDB 2025).2 = formatSeqNumber "LPO" 2025 (seqCounter initDB 2025 + 1) :=
  ⟨(C5_shared_yearly_counter initDB 2025).2.1,
   (C5_shared_yearly_counter initDB 2025).2.2.2.1 (by decide),
   (C5_shared_yearly_counter initDB 2025).2.2.2.2.1⟩

/-- C9: two racing receipts of 3.00 against the same line item with
remaining 5.00.  Each request's transaction takes a `select_for_update`
row lock on the line item before reading `total_received` and holds it to
commit (serializers.py:380-397), so the two transactions serialize: the
concurrent outcome is one of the two sequential orders, and with identical
requests both orders are the same computation.  In it, the first receipt
succeeds and the second aborts with "Qty exceeds remaining (2.00)"; the
remaining quantity ends at 2.00 (never negative), and the failed request
changes nothing. -/
theorem C9_concurrent_receipts_serialize :
    Dec.beq (Dec.sub ⟨1000, 2⟩ (totalReceived dbQ.grnItems 0)) ⟨5, 0⟩ = true ∧
    receive dbQ 0 [⟨0, ⟨300, 2⟩⟩] = .ok dbQ1 ∧
    receive dbQ1 0 [⟨0, ⟨300, 2⟩⟩] = .error (Err.qtyExceedsRemaining ⟨200, 2⟩) ∧
    applyReceive dbQ1 0 [⟨0, ⟨300, 2⟩⟩] = dbQ1 ∧
    Dec.ble Dec.zero (Dec.sub ⟨1000, 2⟩ (totalReceived dbQ1.grnItems 0)) = true :=
  ⟨by decide, by decide, by decide, by decide, by decide⟩

/-- C8: the supplier duplicate rules of `SupplierSerializer.validate`.
(a) A supplier whose name matches an existing supplier case-insensitively
and whose phone matches exactly — in particular an active one — is
rejected with the name-and-phone error.  (b) Same name but a different
phone, no (name, email) match and no registration/tax-id match: creation
succeeds and the supplier is stored.  (c) The registration-number
comparison is case-insensitive: any `iexact` match on the upper-cased
stripped input is rejected. -/
theorem C8_supplier_duplicate_rules (db : DB) (year : Nat) (a b c : SupplierReq) :
    ((pyStrip a.name ≠ "" ∧ pyStrip a.phone ≠ "" ∧
      ∃ s ∈ db.suppliers, s.is_active = true ∧ iexact s.name (pyStrip a.name) = true ∧
        s.phone = pyStrip a.phone) →
      supplierValidate db a = .error Err.supplierDupNamePhone) ∧
    ((∀ s ∈ db.suppliers, iexact s.name (pyStrip b.name) = true → s.phone ≠ pyStrip b.phone) →
     (∀ s ∈ db.suppliers, ¬(iexact s.name (pyStrip b.name) = true ∧
        iexact s.email (pyLower (pyStrip b.email)) = true)) →
     (∀ s ∈ db.suppliers, iexact s.rc_number (pyUpper (pyStrip b.rc_number)) = false) →
     (∀ s ∈ db.suppliers, iexact s.tax_id (pyUpper (pyStrip b.tax_id)) = false) →
      ∃ db', createSupplier db year b = .ok db' ∧
        ∃ s ∈ db'.suppliers, s.name = b.name ∧ s.phone = b.phone ∧ s.email = b.email) ∧
    ((pyStrip c.phone = "" ∧ pyStrip c.email = "" ∧ pyUpper (pyStrip c.rc_number) ≠ "" ∧
      ∃ s ∈ db.suppliers, iexact s.rc_number (pyUpper (pyStrip c.rc_number)) = true) →
      supplierValidate db c = .error Err.supplierDupRcNumber) := by
  refine ⟨?_, ?_, ?_⟩
  · rintro ⟨hn, hp, s, hs, _, hname, hphone⟩
    have hany : (db.suppliers.any
        (fun t => iexact t.name (pyStrip a.name) && t.phone == pyStrip a.phone)) = true :=
      List.any_eq_true.mpr ⟨s, hs, by
        rw [Bool.and_eq_true]
        exact ⟨hname, by rw [beq_iff_eq]; exact hphone⟩⟩
    have hb1 : (pyStrip a.name != "") = true := by simpa using hn
    have hb2 : (pyStrip a.phone != "") = true := by simpa using hp
    unfold supplierValidate
    simp only []
    rw [hb1, hb2, hany]
    rfl
  · intro hbp hbe hbr hbt
    have hany1 : (db.suppliers.any
        (fun t => iexact t.name (pyStrip b.name) && t.phone == pyStrip b.phone)) = false := by
      rw [List.any_eq_false]
      intro t ht hcontra
      rw [Bool.and_eq_true] at hcontra
      exact (hbp t ht hcontra.1) (by simpa using hcontra.2)
    have hany2 : (db.suppliers.any (fun t => iexact t.name (pyStrip b.name) &&
        iexact t.email (pyLower (pyStrip b.email)))) = false := by
      rw [List.any_eq_false]
      intro t ht hcontra
      rw [Bool.and_eq_true] at hcontra
      exact hbe t ht hcontra
    have hany3 : (db.suppliers.any
        (fun t => iexact t.rc_number (pyUpper (pyStrip b.rc_number)))) = false := by
      rw [List.any_eq_false]
      intro t ht hcontra
      rw [hbr t ht] at hcontra
      simp at hcontra
    have hany4 : (db.suppliers.any
        (fun t => iexact t.tax_id (pyUpper (pyStrip b.tax_id)))) = false := by
      rw [List.any_eq_false]
      intro t ht hcontra
      rw [hbt t ht] at hcontra
      simp at hcontra
    have hval : supplierValidate db b = .ok () := by
      unfold supplierValidate
      simp only []
      rw [hany1, hany2, hany3, hany4]
      simp
    refine ⟨{ (next_supplier_code db year).1 with
        suppliers := (next_supplier_code db year).1.suppliers ++
          [⟨(next_supplier_code db year).1.nextSupplierId, (next_supplier_code db year).2,
            b.name, b.email, b.phone, b.rc_number, b.tax_id, b.is_active⟩],
        nextSupplierId := (next_supplier_code db year).1.nextSupplierId + 1 }, ?_, ?_⟩
    · unfold createSupplier
      rw [hval]
    · exact ⟨⟨(next_supplier_code db year).1.nextSupplierId, (next_supplier_code db year).2,
        b.name, b.email, b.phone, b.rc_number, b.tax_id, b.is_active⟩,
        List.mem_append.mpr (Or.inr (by simp)), rfl, rfl, rfl⟩
  · rintro ⟨hp0, he0, hrc, s, hs, hmatch⟩
    have hany : (db.suppliers.any
        (fun t => iexact t.rc_number (pyUpper (pyStrip c.rc_number)))) = true :=
      List.any_eq_true.mpr ⟨s, hs, hmatch⟩
    have hb1 : (pyStrip c.phone != "") = false := by simp [hp0]
    have hb2 : (pyLower (pyStrip c.email) != "") = false := by
      rw [he0]
      decide
    have hrcb : (pyUpper (pyStrip c.rc_number) != "") = true := by simpa using hrc
    unfold supplierValidate
    simp only []
    rw [hb1, hb2, hrcb, hany]
    simp

/-- Witness for C8 on a store holding the active supplier "Acme Ltd" with
phone 0801 and registration number rc-99. -/
theorem C8_supplier_duplicate_rules_witness :
    supplierValidate dbDup ⟨"acme ltd", "", "0801", "", "", true⟩
      = .error Err.supplierDupNamePhone ∧
    (∃ db', createSupplier dbDup 2025 ⟨"Acme Ltd", "new@x.test", "0999", "", "", true⟩
        = .ok db' ∧
      ∃ s ∈ db'.suppliers, s.name = "Acme Ltd" ∧ s.phone = "0999" ∧ s.email = "new@x.test") ∧
    supplierValidate dbDup ⟨"", "", "", "RC-99", "", true⟩
      = .error Err.supplierDupRcNumber := by
  have h := C8_supplier_duplicate_rules dbDup 2025 ⟨"acme ltd", "", "0801", "", "", true⟩
    ⟨"Acme Ltd", "new@x.test", "0999", "", "", true⟩ ⟨"", "", "", "RC-99", "", true⟩
  exact ⟨h.1 (by decide), h.2.1 (by decide) (by decide) (by decide) (by decide),
         h.2.2 (by decide)⟩

/-- C10: the duplicate checks run over `Supplier.objects.all()`, with no
`is_active` filter — a new supplier matching only inactive suppliers on
(name, phone), on (name, email), or on the registration number is still
rejected. -/
theorem C10_duplicate_checks_ignore_inactive (db : DB) (a b c : SupplierReq) :
    ((pyStrip a.name ≠ "" ∧ pyStrip a.phone ≠ "" ∧
      (∀ s ∈ db.suppliers, s.is_active = false) ∧
      ∃ s ∈ db.suppliers, iexact s.name (pyStrip a.name) = true ∧
        s.phone = pyStrip a.phone) →
      supplierValidate db a = .error Err.supplierDupNamePhone) ∧
    ((pyStrip b.phone = "" ∧ pyStrip b.name ≠ "" ∧ pyLower (pyStrip b.email) ≠ "" ∧
      ∃ s ∈ db.suppliers, s.is_active = false ∧ iexact s.name (pyStrip b.name) = true ∧
        iexact s.email (pyLower (pyStrip b.email)) = true) →
      supplierValidate db b = .error Err.supplierDupNameEmail) ∧
    ((pyStrip c.phone = "" ∧ pyStrip c.email = "" ∧ pyUpper (pyStrip c.rc_number) ≠ "" ∧
      ∃ s ∈ db.suppliers, s.is_active = false ∧
        iexact s.rc_number (pyUpper (pyStrip c.rc_number)) = true) →
      supplierValidate db c = .error Err.supplierDupRcNumber) := by
  refine ⟨?_, ?_, ?_⟩
  · rintro ⟨hn, hp, _, s, hs, hname, hphone⟩
    have hany : (db.suppliers.any
        (fun t => iexact t.name (pyStrip a.name) && t.phone == pyStrip a.phone)) = true :=
      List.any_eq_true.mpr ⟨s, hs, by
        rw [Bool.and_eq_true]
        exact ⟨hname, by rw [beq_iff_eq]; exact hphone⟩⟩
    have hb1 : (pyStrip a.name != "") = true := by simpa using hn
    have hb2 : (pyStrip a.phone != "") = true := by simpa using hp
    unfold supplierValidate
    simp only []
    rw [hb1, hb2, hany]
    rfl
  · rintro ⟨hp0, hn, he, s, hs, _, hname, hemail⟩
    have hany : (db.suppliers.any (fun t => iexact t.name (pyStrip b.name) &&
        iexact t.email (pyLower (pyStrip b.email)))) = true :=
      List.any_eq_true.mpr ⟨s, hs, by
        rw [Bool.and_eq_true]
        exact ⟨hname, hemail⟩⟩
    have hb1 : (pyStrip b.phone != "") = false := by simp [hp0]
    have hb2 : (pyStrip b.name != "") = true := by simpa using hn
    have hb3 : (pyLower (pyStrip b.email) != "") = true := by simpa using he
    unfold supplierValidate
    simp only []
    rw [hb1, hb2, hb3, hany]
    simp
  · rintro ⟨hp0, he0, hrc, s, hs, _, hmatch⟩
    have hany : (db.suppliers.any
        (fun t => iexact t.rc_number (pyUpper (pyStrip c.rc_number)))) = true :=
      List.any_eq_true.mpr ⟨s, hs, hmatch⟩
    have hb1 : (pyStrip c.phone != "") = false := by simp [hp0]
    have hb2 : (pyLower (pyStrip c.email) != "") = false := by
      rw [he0]
      decide
    have hrcb : (pyUpper (pyStrip c.rc_number) != "") = true := by simpa using hrc
    unfold supplierValidate
    simp only []
    rw [hb1, hb2, hrcb, hany]
    simp

/-- Witness for C10 on a store whose only supplier (same "Acme Ltd"
record) is inactive: all three duplicate checks still reject. -/
theorem C10_duplicate_checks_ignore_inactive_witness :
    supplierValidate dbDupInactive ⟨"ACME LTD", "", "0801", "", "", true⟩
      = .error Err.supplierDupNamePhone ∧
    supplierValidate dbDupInactive ⟨"Acme Ltd", "SALES@acme.test", "", "", "", true⟩
      = .error Err.supplierDupNameEmail ∧
    supplierValidate dbDupInactive ⟨"", "", "", "Rc-99", "", true⟩
      = .error Err.supplierDupRcNumber := by
  have h := C10_duplicate_checks_ignore_inactive dbDupInactive
    ⟨"ACME LTD", "", "0801", "", "", true⟩ ⟨"Acme Ltd", "SALES@acme.test", "", "", "", true⟩
    ⟨"", "", "", "Rc-99", "", true⟩
  exact ⟨h.1 (by decide), h.2.1 (by decide), h.2.2 (by decide)⟩

end Sacsol
